import Mathlib

/-!
Verification development for the Orchestra workflow orchestration engine.

The definitions below are a shallow embedding of the TypeScript sources:
the phase state machine and dependency resolver (workflow-engine), the
durable store (workflow-db), the event bus (workflow-events), and the
branch-aggregation logic of the phase execution coordinator (workflow-http
and llm-client).  Timestamps are modelled as natural-number clock ticks,
generated identifiers as a counter, and JavaScript objects as association
lists with first-match lookup.
-/

namespace Orchestra

/-- PhaseStatus enum from workflow-contract.ts. -/
inductive PhaseStatus where
  | DRAFT
  | BLOCKED
  | RUNNING
  | WAITING_FOR_HUMAN
  | READY_FOR_REVIEW
  | APPROVED
  | REJECTED
  | ERROR_STATUS
  | COMPLETED
deriving DecidableEq, Repr

/-- PhaseType from workflow-contract.ts. -/
inductive PhaseType where
  | SYSTEM
  | LLM
  | HUMAN
deriving DecidableEq, Repr

/-- WorkflowActionType from workflow-contract.ts. -/
inductive WorkflowActionType where
  | START_PHASE
  | APPROVE_PHASE
  | REJECT_PHASE
  | RETRY_PHASE
deriving DecidableEq, Repr

/-- Artifact kind union from ArtifactRef in workflow-contract.ts. -/
inductive ArtifactKind where
  | diff
  | rubric
  | patch
  | log
  | json
deriving DecidableEq, Repr

/-- ArtifactRef from workflow-contract.ts. -/
structure ArtifactRef where
  artifactId : String
  kind : ArtifactKind
  uri : String
deriving DecidableEq, Repr

/-- PhaseOutput from workflow-contract.ts.  The engine treats outputs as
opaque values (it only ever assigns or clears them), so the structured
payload (uiSchema, uiCode, rubric entries, details bag) is folded into a
single opaque field; no claim below depends on its internals. -/
structure PhaseOutput where
  payload : String
deriving DecidableEq, Repr

/-- PhaseSnapshot from workflow-contract.ts; ISO timestamps are clock ticks. -/
structure PhaseSnapshot where
  runId : String
  phaseId : String
  attempt : Nat
  status : PhaseStatus
  startedAt : Option Nat := none
  finishedAt : Option Nat := none
  error : Option String := none
  output : Option PhaseOutput := none
  artifacts : List ArtifactRef := []
deriving DecidableEq, Repr

/-- WorkflowNode from workflow-contract.ts. -/
structure WorkflowNode where
  phaseId : String
  label : String
  phaseType : PhaseType
  status : PhaseStatus
  dependsOn : List String
deriving DecidableEq, Repr

/-- WorkflowEdge from workflow-contract.ts (fields from/to). -/
structure WorkflowEdge where
  fromId : String
  toId : String
deriving DecidableEq, Repr

/-- WorkflowSnapshot from workflow-contract.ts; the phases record is an
association list with JavaScript-object (first-match) lookup. -/
structure WorkflowSnapshot where
  runId : String
  workflowId : String
  workflowVersion : Nat
  createdAt : Nat
  updatedAt : Nat
  nodes : List WorkflowNode
  edges : List WorkflowEdge
  phases : List (String × PhaseSnapshot)
deriving DecidableEq, Repr

/-- First-match lookup in an association list, the semantics of reading a
JavaScript object property. -/
def lookupFirst {α : Type} : List (String × α) → String → Option α
  | [], _ => none
  | (k, v) :: rest, key => if k = key then some v else lookupFirst rest key

/-- Overwrite every binding of a key (JavaScript objects have unique keys,
so this coincides with in-place mutation of the stored object). -/
def assocUpdate {α : Type} (m : List (String × α)) (key : String) (f : α → α) :
    List (String × α) :=
  m.map (fun kv => if kv.1 = key then (kv.1, f kv.2) else kv)

/-- Insert-or-replace a binding, the semantics of a JavaScript object
property assignment. -/
def upsert {α : Type} (m : List (String × α)) (key : String) (v : α) :
    List (String × α) :=
  if (lookupFirst m key).isSome then
    m.map (fun kv => if kv.1 = key then (kv.1, v) else kv)
  else
    m ++ [(key, v)]

/-- Lookup in the phases record of a snapshot. -/
def phasesFind (phases : List (String × PhaseSnapshot)) (phaseId : String) :
    Option PhaseSnapshot :=
  lookupFirst phases phaseId

/-- STATUS_TRANSITIONS from workflow-engine: the fixed target status of
each mutating action. -/
def STATUS_TRANSITIONS : WorkflowActionType → PhaseStatus
  | .START_PHASE => .RUNNING
  | .APPROVE_PHASE => .APPROVED
  | .REJECT_PHASE => .REJECTED
  | .RETRY_PHASE => .RUNNING

/-- isDependencySatisfied from workflow-engine. -/
def isDependencySatisfied (status : PhaseStatus) : Bool :=
  status == PhaseStatus.COMPLETED || status == PhaseStatus.APPROVED

/-- The node-list helper from workflow-engine: find the first node with the
given phaseId and set its status (nodes.find followed by mutation). -/
def updateNodeStatus (nodes : List WorkflowNode) (phaseId : String)
    (status : PhaseStatus) : List WorkflowNode :=
  match nodes with
  | [] => []
  | node :: rest =>
    if node.phaseId = phaseId then { node with status := status } :: rest
    else node :: updateNodeStatus rest phaseId status

/-- The canRun check inside unblockDependents: every declared dependency
must resolve in the phases record and be in a satisfied status; a missing
dependency counts as unsatisfied. -/
def dependenciesSatisfied (phases : List (String × PhaseSnapshot))
    (dependsOn : List String) : Bool :=
  dependsOn.all (fun dependencyId =>
    match phasesFind phases dependencyId with
    | some dependencyPhase => isDependencySatisfied dependencyPhase.status
    | none => false)

/-- The loop body of unblockDependents from workflow-engine: iterate the
node list in order, and for each BLOCKED node that depends on the updated
phase and whose dependencies are all satisfied, flip both the node and the
phases entry to DRAFT.  The phases record evolves during the iteration,
exactly as the in-place mutation in the source does. -/
def unblockLoop (phases : List (String × PhaseSnapshot)) (updatedPhaseId : String) :
    List WorkflowNode → List (String × PhaseSnapshot) × List WorkflowNode
  | [] => (phases, [])
  | node :: rest =>
    if node.dependsOn.contains updatedPhaseId && node.status == PhaseStatus.BLOCKED
        && dependenciesSatisfied phases node.dependsOn then
      let phases1 := assocUpdate phases node.phaseId
        (fun target => { target with status := PhaseStatus.DRAFT })
      let stepped := unblockLoop phases1 updatedPhaseId rest
      (stepped.1, { node with status := PhaseStatus.DRAFT } :: stepped.2)
    else
      let stepped := unblockLoop phases updatedPhaseId rest
      (stepped.1, node :: stepped.2)

/-- unblockDependents from workflow-engine. -/
def unblockDependents (snapshot : WorkflowSnapshot) (updatedPhaseId : String) :
    WorkflowSnapshot :=
  let stepped := unblockLoop snapshot.phases updatedPhaseId snapshot.nodes
  { snapshot with phases := stepped.1, nodes := stepped.2 }

/-- StoredArtifact from workflow-db.ts. -/
structure StoredArtifact where
  artifactId : String
  runId : String
  phaseId : String
  attempt : Nat
  kind : ArtifactKind
  uri : String
  createdAt : Nat
  data : String
deriving DecidableEq, Repr

/-- ArtifactDb from workflow-db.ts: the single durable document holding all
run snapshots and all artifacts. -/
structure ArtifactDb where
  runs : List (String × WorkflowSnapshot) := []
  artifacts : List (String × StoredArtifact) := []
deriving DecidableEq, Repr

/-- getRunSnapshot from workflow-db.ts. -/
def getRunSnapshot (db : ArtifactDb) (runId : String) : Option WorkflowSnapshot :=
  lookupFirst db.runs runId

/-- saveRunSnapshot from workflow-db.ts (the structuredClone is the
identity in a value-semantics model). -/
def saveRunSnapshot (db : ArtifactDb) (snapshot : WorkflowSnapshot) : ArtifactDb :=
  { db with runs := upsert db.runs snapshot.runId snapshot }

/-- saveArtifact from workflow-db.ts; the generated UUID is a counter and
createdAt is the clock tick at save time. -/
def saveArtifact (db : ArtifactDb) (runId phaseId : String) (attempt : Nat)
    (kind : ArtifactKind) (data : String) (createdAt uuid : Nat) :
    StoredArtifact × ArtifactDb :=
  let artifactId := "art_" ++ toString uuid
  let stored : StoredArtifact :=
    { artifactId := artifactId
      runId := runId
      phaseId := phaseId
      attempt := attempt
      kind := kind
      uri := "db://artifacts/" ++ artifactId
      createdAt := createdAt
      data := data }
  (stored, { db with artifacts := upsert db.artifacts artifactId stored })

/-- Insertion step of a stable sort on createdAt, modelling the
Array.prototype.sort comparison on localeCompare of ISO timestamps. -/
def insertByCreatedAt (a : StoredArtifact) : List StoredArtifact → List StoredArtifact
  | [] => [a]
  | b :: rest =>
    if a.createdAt ≤ b.createdAt then a :: b :: rest
    else b :: insertByCreatedAt a rest

/-- Stable sort on createdAt used by listArtifactsForPhase. -/
def sortByCreatedAt : List StoredArtifact → List StoredArtifact
  | [] => []
  | a :: rest => insertByCreatedAt a (sortByCreatedAt rest)

/-- listArtifactsForPhase from workflow-db.ts: filter by run and phase,
optionally by attempt, then order chronologically. -/
def listArtifactsForPhase (db : ArtifactDb) (runId phaseId : String)
    (attempt : Option Nat) : List StoredArtifact :=
  sortByCreatedAt
    (((db.artifacts.map Prod.snd).filter
        (fun artifact => artifact.runId == runId && artifact.phaseId == phaseId)).filter
      (fun artifact =>
        match attempt with
        | some k => artifact.attempt == k
        | none => true))

/-- deleteRunData from workflow-db.ts: drop the run snapshot and every
artifact whose runId matches. -/
def deleteRunData (db : ArtifactDb) (runId : String) : ArtifactDb :=
  { runs := db.runs.filter (fun kv => kv.1 ≠ runId)
    artifacts := db.artifacts.filter (fun kv => kv.2.runId ≠ runId) }

/-- Modelled from the spec: the seed document mock_responses/workflow.snapshot.json
is not under src/.  The spec and the repository tests fix its shape: a
five-phase DAG phase_a → (phase_b, phase_c) → phase_d → phase_e, where
phase_a is the human gate, phase_b/phase_c are the parallel generation
branches feeding the phase_d comparison, and phase_e is the finalize
phase; the node list and phases map agree on status, and dependents start
BLOCKED. -/
def snapshotTemplate : WorkflowSnapshot :=
  { runId := "run_demo"
    workflowId := "workflow_vector_app"
    workflowVersion := 1
    createdAt := 0
    updatedAt := 0
    nodes :=
      [ { phaseId := "phase_a", label := "Context Init", phaseType := .HUMAN, status := .DRAFT, dependsOn := [] },
        { phaseId := "phase_b", label := "Variant B", phaseType := .LLM, status := .BLOCKED, dependsOn := ["phase_a"] },
        { phaseId := "phase_c", label := "Variant C", phaseType := .LLM, status := .BLOCKED, dependsOn := ["phase_a"] },
        { phaseId := "phase_d", label := "Merge Review", phaseType := .HUMAN, status := .BLOCKED, dependsOn := ["phase_b", "phase_c"] },
        { phaseId := "phase_e", label := "Finalize", phaseType := .LLM, status := .BLOCKED, dependsOn := ["phase_d"] } ]
    edges :=
      [ { fromId := "phase_a", toId := "phase_b" },
        { fromId := "phase_a", toId := "phase_c" },
        { fromId := "phase_b", toId := "phase_d" },
        { fromId := "phase_c", toId := "phase_d" },
        { fromId := "phase_d", toId := "phase_e" } ]
    phases :=
      [ ("phase_a", { runId := "run_demo", phaseId := "phase_a", attempt := 1, status := .DRAFT }),
        ("phase_b", { runId := "run_demo", phaseId := "phase_b", attempt := 1, status := .BLOCKED }),
        ("phase_c", { runId := "run_demo", phaseId := "phase_c", attempt := 1, status := .BLOCKED }),
        ("phase_d", { runId := "run_demo", phaseId := "phase_d", attempt := 1, status := .BLOCKED }),
        ("phase_e", { runId := "run_demo", phaseId := "phase_e", attempt := 1, status := .BLOCKED }) ] }

/-- The per-phase reset performed by normalizePhaseAGate in workflow-engine:
set the status and clear timestamps, output, error, artifacts and the
attempt counter. -/
def resetPhaseTo (status : PhaseStatus) (phase : PhaseSnapshot) : PhaseSnapshot :=
  { phase with
    status := status
    startedAt := none
    finishedAt := none
    output := none
    error := none
    artifacts := []
    attempt := 1 }

/-- normalizePhaseAGate from workflow-engine: force the gate phase to DRAFT
and its immediate dependents to BLOCKED in both the phases map and the
node list. -/
def normalizePhaseAGate (snapshot : WorkflowSnapshot) : WorkflowSnapshot :=
  let phases1 := assocUpdate snapshot.phases "phase_a" (resetPhaseTo .DRAFT)
  let phases2 := assocUpdate phases1 "phase_b" (resetPhaseTo .BLOCKED)
  let phases3 := assocUpdate phases2 "phase_c" (resetPhaseTo .BLOCKED)
  let nodes1 := snapshot.nodes.map (fun node =>
    if node.phaseId = "phase_a" then { node with status := PhaseStatus.DRAFT }
    else if node.phaseId = "phase_b" || node.phaseId = "phase_c" then
      { node with status := PhaseStatus.BLOCKED }
    else node)
  { snapshot with phases := phases3, nodes := nodes1 }

/-- The engine process state: the in-memory run registry, the durable
store, a clock for Date.now samples and a counter for generated UUIDs. -/
structure EngineState where
  runs : List (String × WorkflowSnapshot) := []
  db : ArtifactDb := {}
  clock : Nat := 0
  nextUuid : Nat := 0
deriving DecidableEq, Repr

/-- cloneSnapshot from workflow-engine: structuredClone produces a deep
independent copy, which in a value-semantics model is structurally the
same document. -/
def cloneSnapshot (source : WorkflowSnapshot) : WorkflowSnapshot :=
  source

/-- ensureRun from workflow-engine: return the cached run, else hydrate
from the durable store, else seed a fresh run from the template,
normalize its gate and persist it. -/
def ensureRun (st : EngineState) (runId : String) : WorkflowSnapshot × EngineState :=
  match lookupFirst st.runs runId with
  | some existing => (existing, st)
  | none =>
    match getRunSnapshot st.db runId with
    | some persisted =>
      let hydrated := cloneSnapshot persisted
      (hydrated, { st with runs := upsert st.runs runId hydrated })
    | none =>
      let now := st.clock
      let seeded0 := cloneSnapshot snapshotTemplate
      let seeded1 :=
        { seeded0 with
          runId := runId
          createdAt := now
          updatedAt := now
          phases := seeded0.phases.map (fun kv => (kv.1, { kv.2 with runId := runId })) }
      let seeded := normalizePhaseAGate seeded1
      (seeded,
        { st with
          clock := st.clock + 1
          runs := upsert st.runs runId seeded
          db := saveRunSnapshot st.db seeded })

/-- getWorkflowSnapshot from workflow-engine: a deep independent copy of
the ensured run document. -/
def getWorkflowSnapshot (st : EngineState) (runId : String) :
    WorkflowSnapshot × EngineState :=
  let ensured := ensureRun st runId
  (cloneSnapshot ensured.1, ensured.2)

/-- WorkflowActionRequest from workflow-contract.ts (the opaque payload is
dropped: the engine never reads it). -/
structure WorkflowActionRequest where
  action : WorkflowActionType
  runId : String
  phaseId : String
  actorId : String
  reason : Option String := none
deriving DecidableEq, Repr

/-- WorkflowActionResponse from workflow-contract.ts. -/
structure WorkflowActionResponse where
  accepted : Bool
  runId : String
  phaseId : String
  status : PhaseStatus
  message : Option String := none
deriving DecidableEq, Repr

/-- The phase payload of a phase_updated event. -/
structure PhaseUpdatedInfo where
  phaseId : String
  attempt : Nat
  previousStatus : PhaseStatus
  status : PhaseStatus
deriving DecidableEq, Repr

/-- WorkflowEvent from workflow-contract.ts, flattened: the tagged union is
modelled as an eventType tag plus the optional payload fields. -/
structure WorkflowEvent where
  eventId : String
  eventType : String
  runId : String
  emittedAt : Nat
  phase : Option PhaseUpdatedInfo := none
  phaseId : Option String := none
  artifacts : List ArtifactRef := []
deriving DecidableEq, Repr

/-- ApplyActionResult from workflow-engine. -/
structure ApplyActionResult where
  response : WorkflowActionResponse
  event : WorkflowEvent
deriving DecidableEq, Repr

/-- The snapshot-level core of applyWorkflowAction from workflow-engine:
look up the phase (Unknown phase is an error raised before any mutation),
write the fixed target status, stamp startedAt/finishedAt, apply the
RETRY_PHASE resets, mirror the status into the node list, bump updatedAt
and run the dependency resolver.  Returns the mutated snapshot, the
mutated phase and its previous status. -/
def applyWorkflowActionCore (snapshot : WorkflowSnapshot)
    (request : WorkflowActionRequest) (nowIso : Nat) :
    Except String (WorkflowSnapshot × PhaseSnapshot × PhaseStatus) :=
  match phasesFind snapshot.phases request.phaseId with
  | none =>
    .error ("Unknown phaseId '" ++ request.phaseId ++ "' for run '"
      ++ request.runId ++ "'")
  | some phase =>
    let previousStatus := phase.status
    let nextStatus := STATUS_TRANSITIONS request.action
    let phase1 := { phase with status := nextStatus }
    let phase2 :=
      if request.action = .START_PHASE || request.action = .RETRY_PHASE then
        { phase1 with startedAt := some nowIso }
      else phase1
    let phase3 :=
      if request.action = .APPROVE_PHASE || request.action = .REJECT_PHASE then
        { phase2 with finishedAt := some nowIso }
      else phase2
    let phase4 :=
      if request.action = .RETRY_PHASE then
        { phase3 with
          attempt := phase3.attempt + 1
          error := none
          output := none
          artifacts := [] }
      else phase3
    let snapshot1 :=
      { snapshot with
        phases := assocUpdate snapshot.phases request.phaseId (fun _ => phase4) }
    let snapshot2 :=
      { snapshot1 with
        nodes := updateNodeStatus snapshot1.nodes request.phaseId nextStatus
        updatedAt := nowIso }
    let snapshot3 := unblockDependents snapshot2 request.phaseId
    .ok (snapshot3, phase4, previousStatus)

/-- applyWorkflowAction from workflow-engine: ensure the run, apply the
core mutation, persist the snapshot, and build the response and the
phase_updated event.  The Unknown-phase failure is returned as an error
(the thrown exception); the state reflects that ensureRun may already
have seeded the run. -/
def applyWorkflowAction (st : EngineState) (request : WorkflowActionRequest) :
    EngineState × Except String ApplyActionResult :=
  let ensured := ensureRun st request.runId
  let snapshot := ensured.1
  let st1 := ensured.2
  match applyWorkflowActionCore snapshot request st1.clock with
  | .error e => (st1, .error e)
  | .ok (snapshot3, phase4, previousStatus) =>
    let nowIso := st1.clock
    let nextStatus := STATUS_TRANSITIONS request.action
    let message :=
      match request.reason with
      | some reason => "accepted by " ++ request.actorId ++ ": " ++ reason
      | none => "accepted by " ++ request.actorId
    let event : WorkflowEvent :=
      { eventId := "evt_" ++ toString st1.nextUuid
        eventType := "phase_updated"
        runId := request.runId
        emittedAt := nowIso
        phase := some { phaseId := request.phaseId, attempt := phase4.attempt
                        previousStatus := previousStatus, status := nextStatus } }
    let st2 :=
      { st1 with
        clock := st1.clock + 1
        nextUuid := st1.nextUuid + 1
        runs := upsert st1.runs request.runId snapshot3
        db := saveRunSnapshot st1.db snapshot3 }
    (st2, .ok
      { response :=
          { accepted := true, runId := request.runId, phaseId := request.phaseId
            status := nextStatus, message := some message }
        event := event })

/-- The snapshot-level core of markPhaseReadyForReview from
workflow-engine: set the phase and its node to READY_FOR_REVIEW, stamp
finishedAt and updatedAt; no dependency resolution. -/
def markPhaseReadyForReviewCore (snapshot : WorkflowSnapshot) (phaseId : String)
    (nowIso : Nat) : Except String (WorkflowSnapshot × PhaseSnapshot × PhaseStatus) :=
  match phasesFind snapshot.phases phaseId with
  | none => .error ("Unknown phaseId '" ++ phaseId ++ "'")
  | some phase =>
    let previousStatus := phase.status
    let phase1 :=
      { phase with
        status := PhaseStatus.READY_FOR_REVIEW
        finishedAt := some nowIso }
    let snapshot1 :=
      { snapshot with
        phases := assocUpdate snapshot.phases phaseId (fun _ => phase1)
        nodes := updateNodeStatus snapshot.nodes phaseId PhaseStatus.READY_FOR_REVIEW
        updatedAt := nowIso }
    .ok (snapshot1, phase1, previousStatus)

/-- The snapshot-level core of markPhaseCompleted from workflow-engine:
set the phase and its node to COMPLETED, stamp finishedAt and updatedAt,
then run the dependency resolver. -/
def markPhaseCompletedCore (snapshot : WorkflowSnapshot) (phaseId : String)
    (nowIso : Nat) : Except String (WorkflowSnapshot × PhaseSnapshot × PhaseStatus) :=
  match phasesFind snapshot.phases phaseId with
  | none => .error ("Unknown phaseId '" ++ phaseId ++ "'")
  | some phase =>
    let previousStatus := phase.status
    let phase1 :=
      { phase with
        status := PhaseStatus.COMPLETED
        finishedAt := some nowIso }
    let snapshot1 :=
      { snapshot with
        phases := assocUpdate snapshot.phases phaseId (fun _ => phase1)
        nodes := updateNodeStatus snapshot.nodes phaseId PhaseStatus.COMPLETED
        updatedAt := nowIso }
    let snapshot2 := unblockDependents snapshot1 phaseId
    .ok (snapshot2, phase1, previousStatus)

/-- markPhaseReadyForReview from workflow-engine lifted to engine state. -/
def markPhaseReadyForReview (st : EngineState) (runId phaseId actorId : String) :
    EngineState × Except String ApplyActionResult :=
  let ensured := ensureRun st runId
  let st1 := ensured.2
  match markPhaseReadyForReviewCore ensured.1 phaseId st1.clock with
  | .error e => (st1, .error e)
  | .ok (snapshot1, phase1, previousStatus) =>
    let event : WorkflowEvent :=
      { eventId := "evt_" ++ toString st1.nextUuid
        eventType := "phase_updated", runId := runId, emittedAt := st1.clock
        phase := some { phaseId := phaseId, attempt := phase1.attempt
                        previousStatus := previousStatus
                        status := PhaseStatus.READY_FOR_REVIEW } }
    let st2 :=
      { st1 with
        clock := st1.clock + 1
        nextUuid := st1.nextUuid + 1
        runs := upsert st1.runs runId snapshot1
        db := saveRunSnapshot st1.db snapshot1 }
    (st2, .ok
      { response :=
          { accepted := true, runId := runId, phaseId := phaseId
            status := PhaseStatus.READY_FOR_REVIEW
            message := some ("Phase moved to READY_FOR_REVIEW by " ++ actorId) }
        event := event })

/-- markPhaseCompleted from workflow-engine lifted to engine state. -/
def markPhaseCompleted (st : EngineState) (runId phaseId actorId : String)
    (reason : Option String := none) : EngineState × Except String ApplyActionResult :=
  let ensured := ensureRun st runId
  let st1 := ensured.2
  match markPhaseCompletedCore ensured.1 phaseId st1.clock with
  | .error e => (st1, .error e)
  | .ok (snapshot2, phase1, previousStatus) =>
    let message :=
      match reason with
      | some r => "Phase completed by " ++ actorId ++ ": " ++ r
      | none => "Phase completed by " ++ actorId
    let event : WorkflowEvent :=
      { eventId := "evt_" ++ toString st1.nextUuid
        eventType := "phase_updated", runId := runId, emittedAt := st1.clock
        phase := some { phaseId := phaseId, attempt := phase1.attempt
                        previousStatus := previousStatus
                        status := PhaseStatus.COMPLETED } }
    let st2 :=
      { st1 with
        clock := st1.clock + 1
        nextUuid := st1.nextUuid + 1
        runs := upsert st1.runs runId snapshot2
        db := saveRunSnapshot st1.db snapshot2 }
    (st2, .ok
      { response :=
          { accepted := true, runId := runId, phaseId := phaseId
            status := PhaseStatus.COMPLETED, message := some message }
        event := event })

/-- persistPhaseOutput from workflow-engine: save each artifact payload
under the phase's current attempt, record the returned references on the
phase, set the phase output and persist the snapshot. -/
def persistPhaseOutput (st : EngineState) (runId phaseId : String)
    (output : PhaseOutput) (artifactPayloads : List (ArtifactKind × String)) :
    EngineState × Except String (List ArtifactRef) :=
  let ensured := ensureRun st runId
  let snapshot := ensured.1
  let st1 := ensured.2
  match phasesFind snapshot.phases phaseId with
  | none =>
    (st1, .error ("Unknown phaseId '" ++ phaseId ++ "' for run '" ++ runId ++ "'"))
  | some phase =>
    let saved := artifactPayloads.foldl
      (fun (acc : ArtifactDb × List ArtifactRef × Nat) payload =>
        let step := saveArtifact acc.1 runId phaseId phase.attempt payload.1
          payload.2 st1.clock acc.2.2
        (step.2,
          acc.2.1 ++ [{ artifactId := step.1.artifactId, kind := step.1.kind, uri := step.1.uri }],
          acc.2.2 + 1))
      (st1.db, [], st1.nextUuid)
    let createdRefs := saved.2.1
    let phase1 :=
      { phase with
        output := some output
        artifacts := phase.artifacts ++ createdRefs }
    let snapshot1 :=
      { snapshot with
        phases := assocUpdate snapshot.phases phaseId (fun _ => phase1)
        updatedAt := st1.clock }
    let st2 :=
      { st1 with
        clock := st1.clock + 1
        nextUuid := saved.2.2 + 1
        runs := upsert st1.runs runId snapshot1
        db := saveRunSnapshot saved.1 snapshot1 }
    (st2, .ok createdRefs)

/-- getPhaseStoredArtifacts from workflow-engine: list the stored
artifacts of a phase scoped to its current attempt. -/
def getPhaseStoredArtifacts (st : EngineState) (runId phaseId : String) :
    List StoredArtifact × EngineState :=
  let ensured := ensureRun st runId
  match phasesFind ensured.1.phases phaseId with
  | none => ([], ensured.2)
  | some phase =>
    (listArtifactsForPhase ensured.2.db runId phaseId (some phase.attempt), ensured.2)

/-- resetWorkflowRun from workflow-engine: drop the in-memory entry,
delete the durable data and re-seed via getWorkflowSnapshot. -/
def resetWorkflowRun (st : EngineState) (runId : String) :
    WorkflowSnapshot × EngineState :=
  let st1 :=
    { st with
      runs := st.runs.filter (fun kv => kv.1 ≠ runId)
      db := deleteRunData st.db runId }
  getWorkflowSnapshot st1 runId

/-- Behaviour of a subscribed listener when invoked: the callback either
returns normally or throws.  This models the opaque JavaScript closures
held in the per-run listener sets of workflow-events. -/
inductive ListenerBehavior where
  | ok
  | throws (message : String)
deriving DecidableEq, Repr

/-- One listener invocation inside publishWorkflowEvent: calling the
callback either returns or raises. -/
def invokeListener (behavior : String → WorkflowEvent → ListenerBehavior)
    (listener : String) (event : WorkflowEvent) : Except String Unit :=
  match behavior listener event with
  | .ok => .ok ()
  | .throws message => .error message

/-- The for-loop of publishWorkflowEvent: invoke each listener in order
inside a try/catch; a raised error is caught (and logged) and iteration
continues with the remaining listeners.  The returned list is the
delivery log: one entry per subscribed listener with the caught result. -/
def publishLoop (behavior : String → WorkflowEvent → ListenerBehavior)
    (event : WorkflowEvent) : List String → List (String × Except String Unit)
  | [] => []
  | listener :: rest =>
    match invokeListener behavior listener event with
    | .ok () => (listener, .ok ()) :: publishLoop behavior event rest
    | .error message => (listener, .error message) :: publishLoop behavior event rest

/-- publishWorkflowEvent from workflow-events: fan the event out
synchronously to all current subscribers of its runId; no subscriber set
means nothing to deliver.  A total function: listener failures never
propagate to the publishing action. -/
def publishWorkflowEvent (runListeners : List (String × List String))
    (behavior : String → WorkflowEvent → ListenerBehavior)
    (event : WorkflowEvent) : List (String × Except String Unit) :=
  match lookupFirst runListeners event.runId with
  | none => []
  | some listeners =>
    if listeners.isEmpty then []
    else publishLoop behavior event listeners

/-- maxWaitMs from withDbLock in workflow-db.ts. -/
def maxWaitMs : Nat := 1500

/-- The lock-acquisition loop of withDbLock from workflow-db.ts.  The
environment says whether the mkdirSync of the lock directory succeeds at
a given attempt; each failed attempt sleeps 10 ms, so the elapsed wall
time at attempt k is 10 * k milliseconds, and the loop raises the lock
timeout once that exceeds maxWaitMs.  The function is total: the recursion
is bounded by the hard timeout. -/
def acquireDbLock (mkdirSucceeds : Nat → Bool) (attempt : Nat) :
    Except String Nat :=
  if mkdirSucceeds attempt then .ok attempt
  else if 10 * attempt > maxWaitMs then
    .error "Timed out acquiring workflow DB lock"
  else acquireDbLock mkdirSucceeds (attempt + 1)
termination_by maxWaitMs / 10 + 1 - attempt
decreasing_by
  simp only [maxWaitMs] at *
  omega

/-- File-system operations issued by the durable-store write path. -/
inductive FsOp where
  | mkdirRecursive (path : String)
  | readFile (path : String)
  | writeFile (path : String) (contents : String)
  | rename (src : String) (tgt : String)
deriving DecidableEq, Repr

/-- DB_PATH from workflow-db.ts. -/
def DB_PATH : String := ".data/workflow-db.json"

/-- dirname(DB_PATH), the data directory created by ensureDbFile. -/
def DB_DIR : String := ".data"

/-- The serialized empty database document that ensureDbFile writes when
the DB file is missing: JSON.stringify of an empty runs/artifacts record
with two-space indentation. -/
def emptyDbContents : String :=
  "\x7b\n  \"runs\": \x7b\x7d,\n  \"artifacts\": \x7b\x7d\n\x7d"

/-- The temporary-file path used by writeDb (process id and timestamp
make it unique). -/
def tempDbPath (pid timestamp : Nat) : String :=
  DB_PATH ++ "." ++ toString pid ++ "." ++ toString timestamp ++ ".tmp"

/-- ensureDbFile from workflow-db.ts as the sequence of file-system
operations it performs: create the data directory, probe DB_PATH with a
read, and — only when that read fails because the DB file is missing —
bootstrap DB_PATH by writing the serialized empty database document to
it directly (no temporary file and no rename on this bootstrap path).
The dbFileExists flag says whether the read probe succeeds. -/
def ensureDbFileOps (dbFileExists : Bool) : List FsOp :=
  [FsOp.mkdirRecursive DB_DIR, FsOp.readFile DB_PATH] ++
    (if dbFileExists then [] else [FsOp.writeFile DB_PATH emptyDbContents])

/-- writeDb from workflow-db.ts as the sequence of file-system operations
it performs: first ensureDbFile (which bootstraps DB_PATH with the empty
document when the file is missing), then write the whole serialized
document to a temporary file and atomically rename it over DB_PATH. -/
def writeDbOps (dbFileExists : Bool) (pid timestamp : Nat) (contents : String) :
    List FsOp :=
  ensureDbFileOps dbFileExists ++
    [FsOp.writeFile (tempDbPath pid timestamp) contents,
     FsOp.rename (tempDbPath pid timestamp) DB_PATH]

/-- Per-branch outcome of one generation call, the model of the external
text-generation capability used by the coordinator's fan-outs. -/
inductive BranchOutcome where
  | success (content : String) (provider : String)
  | failure (message : String)
deriving DecidableEq, Repr

/-- Task status union of BatchLlmCallResultItem in llm-client. -/
inductive BatchStatus where
  | SUCCESS
  | FAILURE
deriving DecidableEq, Repr

/-- BatchLlmCallItem from llm-client. -/
structure BatchLlmCallItem where
  key : String
  runId : String
  phaseId : String
  prompt : String
deriving DecidableEq, Repr

/-- BatchLlmCallResultItem from llm-client. -/
structure BatchLlmCallResultItem where
  key : String
  status : BatchStatus
  provider : Option String := none
  content : Option String := none
  error : Option String := none
deriving DecidableEq, Repr

/-- callLlmBatchDirect from llm-client: Promise.allSettled over the items
(one settled result per item, in item order, keyed by the item's key);
a fulfilled branch becomes a SUCCESS entry and a rejected branch becomes
a FAILURE entry carrying its reason — no branch failure rejects the
batch itself. -/
def callLlmBatchDirect (outcome : String → BranchOutcome)
    (items : List BatchLlmCallItem) : List BatchLlmCallResultItem :=
  items.map (fun item =>
    match outcome item.key with
    | .success content provider =>
      { key := item.key, status := .SUCCESS, provider := some provider, content := some content }
    | .failure message =>
      { key := item.key, status := .FAILURE, error := some message })

/-- callLlmBatch from llm-client (the in-process settle-all path; the
Python-backend path returns results keyed identically, so the
coordinator's branch logic is agnostic to it). -/
def callLlmBatch (outcome : String → BranchOutcome)
    (items : List BatchLlmCallItem) : List BatchLlmCallResultItem :=
  if items.isEmpty then [] else callLlmBatchDirect outcome items

/-- PermutationSpec from workflow-http.  The floating-point intensity
field only feeds prompt text and display labels, so it is omitted; the
branch-to-phase assignment depends only on the index. -/
structure PermutationSpec where
  variantId : String
  index : Nat
  total : Nat
  phaseId : Option String
deriving DecidableEq, Repr

/-- buildPermutationSpecs from workflow-http: clamp the branch factor to
[2, 8]; the first branch is attached to phase_b, the last to phase_c, and
middle branches are detached variants. -/
def buildPermutationSpecs (branchFactor : Nat) : List PermutationSpec :=
  let factor := min 8 (max 2 branchFactor)
  (List.range factor).map (fun index =>
    let phaseId : Option String :=
      if index = 0 then some "phase_b"
      else if index = factor - 1 then some "phase_c"
      else none
    { variantId :=
        match phaseId with
        | some p => p
        | none => "phase_variant_" ++ toString (index + 1)
      index := index
      total := factor
      phaseId := phaseId })

/-- Induction branch spec from buildInductionSpecs in workflow-http:
the permutation specs re-keyed to phase_e induction variant ids. -/
structure InductionSpec where
  variantId : String
  index : Nat
  total : Nat
deriving DecidableEq, Repr

/-- buildInductionSpecs from workflow-http. -/
def buildInductionSpecs (branchFactor : Nat) : List InductionSpec :=
  (buildPermutationSpecs branchFactor).map (fun spec =>
    { variantId := "phase_e_induction_" ++ toString (spec.index + 1)
      index := spec.index
      total := spec.total })

/-- One collected refinement branch of the induction fan-out. -/
structure RefinementBranch where
  variantId : String
  status : PhaseStatus
  provider : String
deriving DecidableEq, Repr

/-- The result.forEach aggregation of the phase_e induction fan-out in
workflow-http: for each settled result, find its spec by key (results
without a matching spec are skipped); successes are collected as
APPROVED refinement branches and failures as ERROR_STATUS branches whose
reasons are appended to autoStartErrors. -/
def collectRefinements (inductionSpecs : List InductionSpec) :
    List BatchLlmCallResultItem →
      List RefinementBranch × List RefinementBranch × List String
  | [] => ([], [], [])
  | result :: rest =>
    let tail := collectRefinements inductionSpecs rest
    match inductionSpecs.find? (fun candidate => candidate.variantId == result.key) with
    | none => tail
    | some spec =>
      match result.status with
      | .SUCCESS =>
        ({ variantId := spec.variantId, status := .APPROVED,
           provider := (result.provider).getD "llm" } :: tail.1,
          tail.2.1, tail.2.2)
      | .FAILURE =>
        let message := (result.error).getD "Unknown refinement failure"
        (tail.1,
          { variantId := spec.variantId, status := .ERROR_STATUS,
            provider := "llm" } :: tail.2.1,
          (spec.variantId ++ ": " ++ message) :: tail.2.2)

/-- A rejected action response built by the error handlers of
handleActionRequest in workflow-http. -/
def rejectedResponse (runId phaseId message : String) : WorkflowActionResponse :=
  { accepted := false, runId := runId, phaseId := phaseId,
    status := PhaseStatus.ERROR_STATUS, message := some message }

/-- The result.forEach of the gate-phase (phase_a) variant fan-out in
workflow-http: every settled result with a matching spec is collected
into generatedVariants — as an APPROVED variant on success (with the
attached phase started, its output persisted and the phase
auto-approved), and as an ERROR_STATUS variant on failure with the
reason appended to autoStartErrors.  An exception from one of the engine
calls propagates (it is caught by the surrounding handler), but a branch
failure never raises. -/
def runPermutationBranches (st : EngineState) (runId actorId : String)
    (permutationSpecs : List PermutationSpec) :
    List BatchLlmCallResultItem →
      EngineState × Except String (List RefinementBranch × List String)
  | [] => (st, .ok ([], []))
  | result :: rest =>
    match permutationSpecs.find? (fun candidate => candidate.variantId == result.key) with
    | none => runPermutationBranches st runId actorId permutationSpecs rest
    | some spec =>
      match result.status with
      | .SUCCESS =>
        match spec.phaseId with
        | some attachedPhaseId =>
          let startStep := applyWorkflowAction st
            { action := .START_PHASE, runId := runId, phaseId := attachedPhaseId,
              actorId := actorId }
          match startStep.2 with
          | .error e => (startStep.1, .error e)
          | .ok _ =>
            let persistStep := persistPhaseOutput startStep.1 runId attachedPhaseId
              { payload := (result.content).getD "" } [(ArtifactKind.json, "output")]
            match persistStep.2 with
            | .error e => (persistStep.1, .error e)
            | .ok _ =>
              let approveStep := applyWorkflowAction persistStep.1
                { action := .APPROVE_PHASE, runId := runId, phaseId := attachedPhaseId,
                  actorId := actorId,
                  reason := some "Auto-approved permutation output; human review is deferred to phase_d" }
              match approveStep.2 with
              | .error e => (approveStep.1, .error e)
              | .ok _ =>
                let stepped := runPermutationBranches approveStep.1 runId actorId
                  permutationSpecs rest
                match stepped.2 with
                | .error e => (stepped.1, .error e)
                | .ok (variants, errs) =>
                  (stepped.1, .ok
                    ({ variantId := spec.variantId, status := .APPROVED,
                       provider := (result.provider).getD "llm" } :: variants, errs))
        | none =>
          let stepped := runPermutationBranches st runId actorId permutationSpecs rest
          match stepped.2 with
          | .error e => (stepped.1, .error e)
          | .ok (variants, errs) =>
            (stepped.1, .ok
              ({ variantId := spec.variantId, status := .APPROVED,
                 provider := (result.provider).getD "llm" } :: variants, errs))
      | .FAILURE =>
        let message := (result.error).getD "Unknown permutation failure"
        let stepped := runPermutationBranches st runId actorId permutationSpecs rest
        match stepped.2 with
        | .error e => (stepped.1, .error e)
        | .ok (variants, errs) =>
          (stepped.1, .ok
            ({ variantId := spec.variantId, status := .ERROR_STATUS,
               provider := "llm" } :: variants,
              (spec.variantId ++ ": " ++ message) :: errs))

/-- The phase_a context-init flow of handleActionRequest in workflow-http,
from the point where the single normalize call has succeeded (its parsed
output is a parameter): persist the canonical context artifact,
auto-approve the gate phase, persist the pending variant collection on
phase_d, fan the permutation branches out through the settle-all batch,
process every settled branch, and persist the collected variants when at
least one result (success or failure) was collected.  The HTTP response
is the gate phase's own APPROVE_PHASE response; branch failures are only
reported through autoStartErrors, never as a rejection. -/
def phaseAContextInitFlow (st : EngineState) (runId actorId : String)
    (contextOutput : PhaseOutput) (branchFactor : Nat)
    (outcome : String → BranchOutcome) : EngineState × WorkflowActionResponse :=
  let persistA := persistPhaseOutput st runId "phase_a" contextOutput
    [(ArtifactKind.json, "contextArtifact")]
  match persistA.2 with
  | .error e => (persistA.1, rejectedResponse runId "phase_a" e)
  | .ok _ =>
    let approve := applyWorkflowAction persistA.1
      { action := .APPROVE_PHASE, runId := runId, phaseId := "phase_a",
        actorId := actorId,
        reason := some "Phase A context captured and normalized via LLM" }
    match approve.2 with
    | .error e => (approve.1, rejectedResponse runId "phase_a" e)
    | .ok approveResult =>
      let permutationSpecs := buildPermutationSpecs branchFactor
      let pendingPersist := persistPhaseOutput approve.1 runId "phase_d"
        { payload := "auto_phase_a_variant_collection_pending" } []
      match pendingPersist.2 with
      | .error e => (pendingPersist.1, rejectedResponse runId "phase_a" e)
      | .ok _ =>
        let permutationResults := callLlmBatch outcome
          (permutationSpecs.map (fun permutation =>
            { key := permutation.variantId, runId := runId,
              phaseId := (permutation.phaseId).getD "phase_d", prompt := "" }))
        let branches := runPermutationBranches pendingPersist.1 runId actorId
          permutationSpecs permutationResults
        match branches.2 with
        | .error e => (branches.1, rejectedResponse runId "phase_a" e)
        | .ok (generatedVariants, _autoStartErrors) =>
          if generatedVariants.length > 0 then
            let collectionPersist := persistPhaseOutput branches.1 runId "phase_d"
              { payload := "auto_phase_a_variant_collection" }
              [(ArtifactKind.json, "generatedVariants")]
            match collectionPersist.2 with
            | .error e => (collectionPersist.1, rejectedResponse runId "phase_a" e)
            | .ok _ => (collectionPersist.1, approveResult.response)
          else (branches.1, approveResult.response)

/-- The phase_e targeted-refinement (induction) flow of handleActionRequest
in workflow-http, from the point where the selector was validated: apply
RETRY_PHASE, persist the pending refinement output, fan the induction
branches out through the settle-all batch, aggregate them, and reject
the action if and only if no branch succeeded; otherwise persist the
primary refinement and mark phase_e COMPLETED, whose response is
returned. -/
def phaseEInductionFlow (st : EngineState) (runId actorId : String)
    (componentSelector : String) (branchFactor : Nat)
    (outcome : String → BranchOutcome) : EngineState × WorkflowActionResponse :=
  let retry := applyWorkflowAction st
    { action := .RETRY_PHASE, runId := runId, phaseId := "phase_e", actorId := actorId }
  match retry.2 with
  | .error e => (retry.1, rejectedResponse runId "phase_e" e)
  | .ok _ =>
    let pendingPersist := persistPhaseOutput retry.1 runId "phase_e"
      { payload := "phase_e_component_induction_pending" } []
    match pendingPersist.2 with
    | .error e => (pendingPersist.1, rejectedResponse runId "phase_e" e)
    | .ok _ =>
      let inductionSpecs := buildInductionSpecs branchFactor
      let refinementResults := callLlmBatch outcome
        (inductionSpecs.map (fun spec =>
          { key := spec.variantId, runId := runId, phaseId := "phase_e", prompt := "" }))
      let collected := collectRefinements inductionSpecs refinementResults
      let successfulRefinements := collected.1
      if successfulRefinements.isEmpty then
        (pendingPersist.1,
          rejectedResponse runId "phase_e" "All induction refinement branches failed")
      else
        let mergedPersist := persistPhaseOutput pendingPersist.1 runId "phase_e"
          { payload := "phase_e_component_induction" }
          [(ArtifactKind.json, "output")]
        match mergedPersist.2 with
        | .error e => (mergedPersist.1, rejectedResponse runId "phase_e" e)
        | .ok _ =>
          let complete := markPhaseCompleted mergedPersist.1 runId "phase_e" actorId
            (some ("Component refinement completed for '" ++ componentSelector ++ "'"))
          match complete.2 with
          | .error e => (complete.1, rejectedResponse runId "phase_e" e)
          | .ok completeResult => (complete.1, completeResult.response)

/-- A status-mutating engine routine applied to one run snapshot: one of
the four workflow actions, markPhaseCompleted, or
markPhaseReadyForReview. -/
inductive EngineOp where
  | applyAction (request : WorkflowActionRequest)
  | completePhase (phaseId : String)
  | readyForReview (phaseId : String)
deriving DecidableEq, Repr

/-- Apply one engine routine to a run snapshot; an Unknown-phase failure
is raised before any mutation, so the snapshot is unchanged in that
case. -/
def stepSnapshotOp (snapshot : WorkflowSnapshot) (op : EngineOp) (now : Nat) :
    WorkflowSnapshot :=
  match op with
  | .applyAction request =>
    match applyWorkflowActionCore snapshot request now with
    | .ok r => r.1
    | .error _ => snapshot
  | .completePhase phaseId =>
    match markPhaseCompletedCore snapshot phaseId now with
    | .ok r => r.1
    | .error _ => snapshot
  | .readyForReview phaseId =>
    match markPhaseReadyForReviewCore snapshot phaseId now with
    | .ok r => r.1
    | .error _ => snapshot

/-- Apply a whole sequence of engine routines (each with its Date.now
sample) to a run snapshot. -/
def runSnapshotOps (snapshot : WorkflowSnapshot) (ops : List (EngineOp × Nat)) :
    WorkflowSnapshot :=
  ops.foldl (fun s p => stepSnapshotOp s p.1 p.2) snapshot

/-- One node agrees with the phases record: whenever its phaseId is a key
of the record, the stored status equals the node status. -/
def nodeAgrees (phases : List (String × PhaseSnapshot)) (node : WorkflowNode) : Bool :=
  match phasesFind phases node.phaseId with
  | some p => node.status == p.status
  | none => true

/-- The no-split-state invariant: the node list and the phases map agree
on status for every phase. -/
def nodesAgreeWithPhases (snapshot : WorkflowSnapshot) : Prop :=
  ∀ n ∈ snapshot.nodes, nodeAgrees snapshot.phases n = true

/-- Well-formedness of the node list: phase ids are pairwise distinct
(one node per phase, as in the seeded template). -/
def nodeIdsNodup (snapshot : WorkflowSnapshot) : Prop :=
  (snapshot.nodes.map (fun n => n.phaseId)).Nodup

/-- A phase id is present in a run as seen by the engine: the run ensured
for runId (cache hit, hydration, or seeding) has d as a key of its phases
record.  All coordinator flows address phases through this lookup. -/
def phasePresent (st : EngineState) (runId d : String) : Bool :=
  (phasesFind (ensureRun st runId).1.phases d).isSome

theorem lookupFirst_assocUpdate {α : Type} (m : List (String × α)) (key d : String)
    (f : α → α) :
    lookupFirst (assocUpdate m key f) d =
      if d = key then (lookupFirst m d).map f else lookupFirst m d := by
  induction m with
  | nil => simp [assocUpdate, lookupFirst]
  | cons kv rest ih =>
    obtain ⟨k, v⟩ := kv
    simp only [assocUpdate, List.map_cons] at ih ⊢
    by_cases hk : k = key
    · rw [if_pos hk]
      by_cases hd : k = d
      · subst hd
        rw [lookupFirst, if_pos rfl, lookupFirst, if_pos rfl, if_pos hk]
        simp
      · have hdk : ¬ d = k := fun h => hd h.symm
        rw [lookupFirst, if_neg hd, lookupFirst, if_neg hd, ih]
    · rw [if_neg hk]
      by_cases hd : k = d
      · subst hd
        have hdkey : ¬ k = key := hk
        rw [lookupFirst, if_pos rfl, lookupFirst, if_pos rfl, if_neg hdkey]
      · rw [lookupFirst, if_neg hd, lookupFirst, if_neg hd, ih]

theorem lookupFirst_assocUpdate_none {α : Type} (m : List (String × α))
    (key d : String) (f : α → α) :
    lookupFirst (assocUpdate m key f) d = none ↔ lookupFirst m d = none := by
  rw [lookupFirst_assocUpdate]
  by_cases h : d = key
  · simp [h]
  · simp [h]

theorem lookupFirst_upsert_self {α : Type} (m : List (String × α)) (key : String)
    (v : α) : lookupFirst (upsert m key v) key = some v := by
  unfold upsert
  by_cases h : (lookupFirst m key).isSome
  · rw [if_pos h]
    revert h
    induction m with
    | nil => intro h; simp [lookupFirst] at h
    | cons kv rest ih =>
      intro h
      obtain ⟨k, w⟩ := kv
      by_cases hk : k = key
      · simp only [List.map_cons, if_pos hk]
        rw [lookupFirst, if_pos hk]
      · simp only [List.map_cons, if_neg hk]
        rw [lookupFirst, if_neg hk]
        apply ih
        rw [lookupFirst, if_neg hk] at h
        exact h
  · rw [if_neg h]
    induction m with
    | nil => simp [lookupFirst]
    | cons kv rest ih =>
      obtain ⟨k, w⟩ := kv
      by_cases hk : k = key
      · exfalso
        apply h
        rw [lookupFirst, if_pos hk]
        rfl
      · rw [List.cons_append, lookupFirst, if_neg hk]
        apply ih
        intro hsome
        apply h
        rw [lookupFirst, if_neg hk]
        exact hsome

theorem lookupFirst_filter_ne {α : Type} (m : List (String × α)) (key : String) :
    lookupFirst (m.filter (fun kv => kv.1 ≠ key)) key = none := by
  induction m with
  | nil => simp [lookupFirst]
  | cons kv rest ih =>
    by_cases hk : kv.1 = key
    · simpa [List.filter_cons, hk] using ih
    · have hkk : ¬ key = kv.1 := fun hh => hk hh.symm
      simpa [List.filter_cons, hk, lookupFirst, hkk] using ih

theorem updateNodeStatus_length (nodes : List WorkflowNode) (phaseId : String)
    (status : PhaseStatus) :
    (updateNodeStatus nodes phaseId status).length = nodes.length := by
  induction nodes with
  | nil => rfl
  | cons node rest ih =>
    unfold updateNodeStatus
    by_cases h : node.phaseId = phaseId
    · simp [h]
    · simp [h, ih]

theorem updateNodeStatus_ids (nodes : List WorkflowNode) (phaseId : String)
    (status : PhaseStatus) :
    (updateNodeStatus nodes phaseId status).map (fun n => n.phaseId) =
      nodes.map (fun n => n.phaseId) := by
  induction nodes with
  | nil => rfl
  | cons node rest ih =>
    unfold updateNodeStatus
    by_cases h : node.phaseId = phaseId
    · simp [h]
    · simp [h, ih]

theorem mem_insertByCreatedAt (a x : StoredArtifact) (l : List StoredArtifact) :
    a ∈ insertByCreatedAt x l ↔ a = x ∨ a ∈ l := by
  induction l with
  | nil => simp [insertByCreatedAt]
  | cons b rest ih =>
    unfold insertByCreatedAt
    by_cases h : x.createdAt ≤ b.createdAt
    · simp [h]
    · simp only [h, if_neg, not_false_eq_true, List.mem_cons, ih]
      tauto

theorem mem_sortByCreatedAt (a : StoredArtifact) (l : List StoredArtifact) :
    a ∈ sortByCreatedAt l ↔ a ∈ l := by
  induction l with
  | nil => simp [sortByCreatedAt]
  | cons b rest ih =>
    unfold sortByCreatedAt
    rw [mem_insertByCreatedAt]
    simp [ih]

theorem unblockLoop_length (u : String) :
    ∀ (ns : List WorkflowNode) (phases : List (String × PhaseSnapshot)),
      (unblockLoop phases u ns).2.length = ns.length := by
  intro ns
  induction ns with
  | nil => intro phases; rfl
  | cons node rest ih =>
    intro phases
    simp only [unblockLoop]
    split
    · simp [ih]
    · simp [ih]

theorem unblockLoop_find_of_no_blocked (u d : String) :
    ∀ (ns : List WorkflowNode) (phases : List (String × PhaseSnapshot)),
      (∀ n ∈ ns, n.phaseId = d → n.status ≠ PhaseStatus.BLOCKED) →
      lookupFirst (unblockLoop phases u ns).1 d = lookupFirst phases d := by
  intro ns
  induction ns with
  | nil => intro phases _; rfl
  | cons node rest ih =>
    intro phases hno
    simp only [unblockLoop]
    split
    · next hcond =>
      simp only [Bool.and_eq_true, beq_iff_eq] at hcond
      have hblk : node.status = PhaseStatus.BLOCKED := hcond.1.2
      have hpid : ¬ node.phaseId = d := by
        intro hd
        exact hno node (List.mem_cons_self node rest) hd hblk
      show lookupFirst (unblockLoop _ u rest).1 d = lookupFirst phases d
      rw [ih _ (fun n hn hnd => hno n (List.mem_cons_of_mem node hn) hnd)]
      rw [lookupFirst_assocUpdate]
      rw [if_neg (fun hdk => hpid hdk.symm)]
    · show lookupFirst (unblockLoop phases u rest).1 d = lookupFirst phases d
      exact ih _ (fun n hn hnd => hno n (List.mem_cons_of_mem node hn) hnd)

theorem unblockLoop_find_none (u d : String) :
    ∀ (ns : List WorkflowNode) (phases : List (String × PhaseSnapshot)),
      (lookupFirst (unblockLoop phases u ns).1 d = none ↔ lookupFirst phases d = none) := by
  intro ns
  induction ns with
  | nil => intro phases; exact Iff.rfl
  | cons node rest ih =>
    intro phases
    simp only [unblockLoop]
    split
    · exact (ih _).trans (lookupFirst_assocUpdate_none phases node.phaseId d _)
    · exact ih _

theorem dependenciesSatisfied_false_of_missing (phases : List (String × PhaseSnapshot))
    (deps : List String) (dep : String) (hmem : dep ∈ deps)
    (hnone : phasesFind phases dep = none) :
    dependenciesSatisfied phases deps = false := by
  by_contra h
  have hall : dependenciesSatisfied phases deps = true := by
    cases hv : dependenciesSatisfied phases deps
    · exact absurd hv h
    · rfl
  unfold dependenciesSatisfied at hall
  rw [List.all_eq_true] at hall
  have := hall dep hmem
  rw [hnone] at this
  exact Bool.false_ne_true this

theorem unblockLoop_get_missing_dep (u dep : String) :
    ∀ (ns : List WorkflowNode) (phases : List (String × PhaseSnapshot))
      (i : Nat) (n : WorkflowNode),
      ns.get? i = some n →
      dep ∈ n.dependsOn →
      lookupFirst phases dep = none →
      (unblockLoop phases u ns).2.get? i = some n := by
  intro ns
  induction ns with
  | nil => intro phases i n hget; simp [List.get?] at hget
  | cons node rest ih =>
    intro phases i n hget hdep hnone
    cases i with
    | zero =>
      have hn : n = node := by
        simp [List.get?] at hget
        exact hget.symm
      subst hn
      have hsat : dependenciesSatisfied phases n.dependsOn = false :=
        dependenciesSatisfied_false_of_missing phases n.dependsOn dep hdep hnone
      simp only [unblockLoop]
      split
      · next hcond =>
        exfalso
        simp only [Bool.and_eq_true] at hcond
        rw [hsat] at hcond
        exact Bool.false_ne_true hcond.2
      · rfl
    | succ j =>
      have hget' : rest.get? j = some n := by simpa [List.get?] using hget
      simp only [unblockLoop]
      split
      · have hnone1 : lookupFirst (assocUpdate phases node.phaseId
            (fun target => { target with status := PhaseStatus.DRAFT })) dep = none :=
          (lookupFirst_assocUpdate_none phases node.phaseId dep _).mpr hnone
        show (_ :: (unblockLoop _ u rest).2).get? (j + 1) = some n
        simpa [List.get?] using ih _ j n hget' hdep hnone1
      · show (node :: (unblockLoop phases u rest).2).get? (j + 1) = some n
        simpa [List.get?] using ih _ j n hget' hdep hnone

theorem unblockLoop_cons (phases : List (String × PhaseSnapshot)) (u : String)
    (node : WorkflowNode) (rest : List WorkflowNode) :
    unblockLoop phases u (node :: rest) =
      if node.dependsOn.contains u && node.status == PhaseStatus.BLOCKED
          && dependenciesSatisfied phases node.dependsOn then
        ((unblockLoop (assocUpdate phases node.phaseId
            (fun target => { target with status := PhaseStatus.DRAFT })) u rest).1,
          { node with status := PhaseStatus.DRAFT } ::
            (unblockLoop (assocUpdate phases node.phaseId
              (fun target => { target with status := PhaseStatus.DRAFT })) u rest).2)
      else
        ((unblockLoop phases u rest).1, node :: (unblockLoop phases u rest).2) := by
  rw [unblockLoop]

theorem dependenciesSatisfied_assocUpdate_blocked
    (phases : List (String × PhaseSnapshot)) (pid : String)
    (hblocked : ∀ p, lookupFirst phases pid = some p → p.status = PhaseStatus.BLOCKED) :
    ∀ deps, dependenciesSatisfied (assocUpdate phases pid
        (fun target => { target with status := PhaseStatus.DRAFT })) deps =
      dependenciesSatisfied phases deps := by
  intro deps
  induction deps with
  | nil => rfl
  | cons d ds ih =>
    simp only [dependenciesSatisfied, List.all_cons] at ih ⊢
    rw [ih]
    congr 1
    show (match phasesFind (assocUpdate phases pid _) d with
      | some dependencyPhase => isDependencySatisfied dependencyPhase.status
      | none => false) =
      (match phasesFind phases d with
      | some dependencyPhase => isDependencySatisfied dependencyPhase.status
      | none => false)
    unfold phasesFind
    rw [lookupFirst_assocUpdate]
    by_cases hd : d = pid
    · rw [if_pos hd]
      subst hd
      cases hlook : lookupFirst phases d with
      | none => rfl
      | some p =>
        have hp : p.status = PhaseStatus.BLOCKED := hblocked p hlook
        show isDependencySatisfied PhaseStatus.DRAFT = isDependencySatisfied p.status
        rw [hp]
        rfl
    · rw [if_neg hd]

theorem unblockLoop_agree (u : String) :
    ∀ (ns : List WorkflowNode) (phases : List (String × PhaseSnapshot)),
      (ns.map (fun n => n.phaseId)).Nodup →
      (∀ n ∈ ns, nodeAgrees phases n = true) →
      ∀ n' ∈ (unblockLoop phases u ns).2,
        nodeAgrees (unblockLoop phases u ns).1 n' = true := by
  intro ns
  induction ns with
  | nil => intro phases _ _ n' hmem; simp [unblockLoop] at hmem
  | cons node rest ih =>
    intro phases hnodup hagree n' hmem
    rw [List.map_cons, List.nodup_cons] at hnodup
    have hnotin : node.phaseId ∉ rest.map (fun n => n.phaseId) := hnodup.1
    have hnodup' : (rest.map (fun n => n.phaseId)).Nodup := hnodup.2
    have hrest_no_pid : ∀ n ∈ rest, n.phaseId = node.phaseId → False := by
      intro n hn hpid
      exact hnotin (hpid ▸ List.mem_map_of_mem (fun m => m.phaseId) hn)
    rw [unblockLoop_cons] at hmem ⊢
    by_cases hcond : (node.dependsOn.contains u && node.status == PhaseStatus.BLOCKED
        && dependenciesSatisfied phases node.dependsOn) = true
    · rw [if_pos hcond] at hmem ⊢
      have hfind_stable : lookupFirst (unblockLoop (assocUpdate phases node.phaseId
          (fun target => { target with status := PhaseStatus.DRAFT })) u rest).1
            node.phaseId =
          lookupFirst (assocUpdate phases node.phaseId
            (fun target => { target with status := PhaseStatus.DRAFT })) node.phaseId :=
        unblockLoop_find_of_no_blocked u node.phaseId rest _
          (fun n hn hnd _ => hrest_no_pid n hn hnd)
      rcases List.mem_cons.mp hmem with hhead | htail
      · subst hhead
        unfold nodeAgrees phasesFind
        simp only
        rw [hfind_stable, lookupFirst_assocUpdate, if_pos rfl]
        cases lookupFirst phases node.phaseId with
        | none => rfl
        | some p => simp
      · apply ih _ hnodup' _ n' htail
        intro n hn
        unfold nodeAgrees phasesFind
        rw [lookupFirst_assocUpdate,
          if_neg (fun h => hrest_no_pid n hn h)]
        exact hagree n (List.mem_cons_of_mem node hn)
    · rw [if_neg hcond] at hmem ⊢
      rcases List.mem_cons.mp hmem with hhead | htail
      · subst hhead
        unfold nodeAgrees phasesFind
        rw [unblockLoop_find_of_no_blocked u n'.phaseId rest _
          (fun n hn hnd _ => hrest_no_pid n hn hnd)]
        exact hagree n' (List.mem_cons_self n' rest)
      · exact ih _ hnodup' (fun n hn => hagree n (List.mem_cons_of_mem node hn)) n' htail

theorem unblockLoop_nodes_eq (u : String) :
    ∀ (ns : List WorkflowNode) (phases : List (String × PhaseSnapshot)),
      (ns.map (fun n => n.phaseId)).Nodup →
      (∀ n ∈ ns, n.status = PhaseStatus.BLOCKED →
        ∀ p, lookupFirst phases n.phaseId = some p → p.status = PhaseStatus.BLOCKED) →
      (unblockLoop phases u ns).2 = ns.map (fun n =>
        if n.dependsOn.contains u && n.status == PhaseStatus.BLOCKED
            && dependenciesSatisfied phases n.dependsOn
        then { n with status := PhaseStatus.DRAFT } else n) := by
  intro ns
  induction ns with
  | nil => intro phases _ _; rfl
  | cons node rest ih =>
    intro phases hnodup hblocked
    rw [List.map_cons, List.nodup_cons] at hnodup
    have hnotin : node.phaseId ∉ rest.map (fun n => n.phaseId) := hnodup.1
    have hrest_no_pid : ∀ n ∈ rest, n.phaseId = node.phaseId → False := by
      intro n hn hpid
      exact hnotin (hpid ▸ List.mem_map_of_mem (fun m => m.phaseId) hn)
    rw [unblockLoop_cons, List.map_cons]
    by_cases hcond : (node.dependsOn.contains u && node.status == PhaseStatus.BLOCKED
        && dependenciesSatisfied phases node.dependsOn) = true
    · rw [if_pos hcond, if_pos hcond]
      dsimp only
      have hblk : node.status = PhaseStatus.BLOCKED := by
        simp only [Bool.and_eq_true, beq_iff_eq] at hcond
        exact hcond.1.2
      have hblocked_node : ∀ p, lookupFirst phases node.phaseId = some p →
          p.status = PhaseStatus.BLOCKED :=
        hblocked node (List.mem_cons_self node rest) hblk
      have hrest :
          (unblockLoop (assocUpdate phases node.phaseId
            (fun target => { target with status := PhaseStatus.DRAFT })) u rest).2 =
          rest.map (fun n =>
            if n.dependsOn.contains u && n.status == PhaseStatus.BLOCKED
                && dependenciesSatisfied (assocUpdate phases node.phaseId
                  (fun target => { target with status := PhaseStatus.DRAFT })) n.dependsOn
            then { n with status := PhaseStatus.DRAFT } else n) := by
        apply ih _ hnodup.2
        intro n hn hblk' p hlook
        apply hblocked n (List.mem_cons_of_mem node hn) hblk' p
        rw [lookupFirst_assocUpdate, if_neg (fun h => hrest_no_pid n hn h)] at hlook
        exact hlook
      rw [hrest]
      congr 1
      apply List.map_congr_left
      intro n hn
      rw [dependenciesSatisfied_assocUpdate_blocked phases node.phaseId
        hblocked_node n.dependsOn]
    · rw [if_neg hcond, if_neg hcond]
      dsimp only
      congr 1
      apply ih _ hnodup.2
      intro n hn
      exact hblocked n (List.mem_cons_of_mem node hn)

theorem agree_updateNodeStatus
    (phases phases' : List (String × PhaseSnapshot)) (pid : String) (s : PhaseStatus)
    (hother : ∀ d, d ≠ pid → lookupFirst phases' d = lookupFirst phases d)
    (hpid : ∀ p, lookupFirst phases' pid = some p → p.status = s) :
    ∀ (ns : List WorkflowNode), (ns.map (fun n => n.phaseId)).Nodup →
      (∀ n ∈ ns, nodeAgrees phases n = true) →
      ∀ n' ∈ updateNodeStatus ns pid s, nodeAgrees phases' n' = true := by
  intro ns
  induction ns with
  | nil => intro _ _ n' hmem; simp [updateNodeStatus] at hmem
  | cons node rest ih =>
    intro hnodup hagree n' hmem
    rw [List.map_cons, List.nodup_cons] at hnodup
    have hrest_no_pid : ∀ n ∈ rest, n.phaseId ≠ node.phaseId := by
      intro n hn hpid'
      exact hnodup.1 (hpid' ▸ List.mem_map_of_mem (fun m => m.phaseId) hn)
    unfold updateNodeStatus at hmem
    by_cases h : node.phaseId = pid
    · rw [if_pos h] at hmem
      rcases List.mem_cons.mp hmem with hhead | htail
      · subst hhead
        unfold nodeAgrees phasesFind
        simp only
        rw [h]
        cases hlook : lookupFirst phases' pid with
        | none => rfl
        | some p =>
          have := hpid p hlook
          simp [this]
      · have hne : n'.phaseId ≠ pid := fun hp =>
          hrest_no_pid n' htail (hp.trans h.symm)
        unfold nodeAgrees phasesFind
        rw [hother n'.phaseId hne]
        exact hagree n' (List.mem_cons_of_mem node htail)
    · rw [if_neg h] at hmem
      rcases List.mem_cons.mp hmem with hhead | htail
      · subst hhead
        unfold nodeAgrees phasesFind
        rw [hother n'.phaseId h]
        exact hagree n' (List.mem_cons_self n' rest)
      · exact ih hnodup.2 (fun n hn => hagree n (List.mem_cons_of_mem node hn)) n' htail

theorem updateNodeStatus_pid_status (pid : String) (s : PhaseStatus) :
    ∀ (ns : List WorkflowNode), (ns.map (fun n => n.phaseId)).Nodup →
      ∀ n' ∈ updateNodeStatus ns pid s, n'.phaseId = pid → n'.status = s := by
  intro ns
  induction ns with
  | nil => intro _ n' hmem; simp [updateNodeStatus] at hmem
  | cons node rest ih =>
    intro hnodup n' hmem hpid'
    rw [List.map_cons, List.nodup_cons] at hnodup
    unfold updateNodeStatus at hmem
    by_cases h : node.phaseId = pid
    · rw [if_pos h] at hmem
      rcases List.mem_cons.mp hmem with hhead | htail
      · subst hhead; rfl
      · exfalso
        apply hnodup.1
        rw [h, ← hpid']
        exact List.mem_map_of_mem (fun m => m.phaseId) htail
    · rw [if_neg h] at hmem
      rcases List.mem_cons.mp hmem with hhead | htail
      · subst hhead; exact absurd hpid' h
      · exact ih hnodup.2 n' htail hpid'

theorem updateNodeStatus_get? (pid : String) (s : PhaseStatus) :
    ∀ (ns : List WorkflowNode) (i : Nat) (n : WorkflowNode),
      ns.get? i = some n →
      ∃ n', (updateNodeStatus ns pid s).get? i = some n' ∧
        n'.phaseId = n.phaseId ∧ n'.dependsOn = n.dependsOn ∧
        (n'.status = n.status ∨ n'.status = s) := by
  intro ns
  induction ns with
  | nil => intro i n hget; simp [List.get?] at hget
  | cons node rest ih =>
    intro i n hget
    unfold updateNodeStatus
    by_cases h : node.phaseId = pid
    · rw [if_pos h]
      cases i with
      | zero =>
        have hn : n = node := by simpa [List.get?] using hget.symm
        subst hn
        exact ⟨{ n with status := s }, rfl, rfl, rfl, Or.inr rfl⟩
      | succ j =>
        have hget' : rest.get? j = some n := by simpa [List.get?] using hget
        exact ⟨n, by simpa [List.get?] using hget', rfl, rfl, Or.inl rfl⟩
    · rw [if_neg h]
      cases i with
      | zero =>
        have hn : n = node := by simpa [List.get?] using hget.symm
        subst hn
        exact ⟨n, by simp [List.get?], rfl, rfl, Or.inl rfl⟩
      | succ j =>
        have hget' : rest.get? j = some n := by simpa [List.get?] using hget
        obtain ⟨n', hn', h1, h2, h3⟩ := ih j n hget'
        exact ⟨n', by simpa [List.get?] using hn', h1, h2, h3⟩

theorem STATUS_TRANSITIONS_ne_BLOCKED (action : WorkflowActionType) :
    STATUS_TRANSITIONS action ≠ PhaseStatus.BLOCKED := by
  cases action <;> decide

theorem STATUS_TRANSITIONS_ne_DRAFT (action : WorkflowActionType) :
    STATUS_TRANSITIONS action ≠ PhaseStatus.DRAFT := by
  cases action <;> decide

theorem unblockDependents_agree (snapshot : WorkflowSnapshot) (u : String)
    (hnodup : nodeIdsNodup snapshot) (hagree : nodesAgreeWithPhases snapshot) :
    nodesAgreeWithPhases (unblockDependents snapshot u) := by
  intro n' hmem
  unfold unblockDependents at hmem ⊢
  exact unblockLoop_agree u snapshot.nodes snapshot.phases hnodup hagree n' hmem

theorem unblockDependents_find_of_no_blocked (snapshot : WorkflowSnapshot) (u d : String)
    (hno : ∀ n ∈ snapshot.nodes, n.phaseId = d → n.status ≠ PhaseStatus.BLOCKED) :
    lookupFirst (unblockDependents snapshot u).phases d =
      lookupFirst snapshot.phases d :=
  unblockLoop_find_of_no_blocked u d snapshot.nodes snapshot.phases hno

theorem unblockDependents_ids (snapshot : WorkflowSnapshot) (u : String) :
    (unblockDependents snapshot u).nodes.map (fun n => n.phaseId) =
      snapshot.nodes.map (fun n => n.phaseId) := by
  unfold unblockDependents
  generalize snapshot.phases = phases
  induction snapshot.nodes generalizing phases with
  | nil => rfl
  | cons node rest ih =>
    rw [unblockLoop_cons]
    by_cases hcond : (node.dependsOn.contains u && node.status == PhaseStatus.BLOCKED
        && dependenciesSatisfied phases node.dependsOn) = true
    · rw [if_pos hcond]
      simp only [List.map_cons]
      rw [ih]
    · rw [if_neg hcond]
      simp only [List.map_cons]
      rw [ih]

theorem applyWorkflowActionCore_ok (snapshot : WorkflowSnapshot)
    (request : WorkflowActionRequest) (nowIso : Nat) (phase : PhaseSnapshot)
    (h : phasesFind snapshot.phases request.phaseId = some phase) :
    ∃ phase4 : PhaseSnapshot,
      applyWorkflowActionCore snapshot request nowIso =
        .ok (unblockDependents
              { snapshot with
                phases := assocUpdate snapshot.phases request.phaseId (fun _ => phase4)
                nodes := updateNodeStatus snapshot.nodes request.phaseId
                  (STATUS_TRANSITIONS request.action)
                updatedAt := nowIso } request.phaseId,
            phase4, phase.status) ∧
      phase4.status = STATUS_TRANSITIONS request.action ∧
      (request.action = .RETRY_PHASE →
        phase4.attempt = phase.attempt + 1 ∧ phase4.error = none ∧
          phase4.output = none ∧ phase4.artifacts = []) := by
  obtain ⟨act, rid, pidq, aid, rsn⟩ := request
  unfold applyWorkflowActionCore
  simp only at h ⊢
  rw [h]
  cases act with
  | START_PHASE =>
    refine ⟨_, rfl, rfl, ?_⟩
    intro hcontra
    cases hcontra
  | APPROVE_PHASE =>
    refine ⟨_, rfl, rfl, ?_⟩
    intro hcontra
    cases hcontra
  | REJECT_PHASE =>
    refine ⟨_, rfl, rfl, ?_⟩
    intro hcontra
    cases hcontra
  | RETRY_PHASE =>
    exact ⟨_, rfl, rfl, fun _ => ⟨rfl, rfl, rfl, rfl⟩⟩

theorem markPhaseCompletedCore_ok (snapshot : WorkflowSnapshot) (phaseId : String)
    (nowIso : Nat) (phase : PhaseSnapshot)
    (h : phasesFind snapshot.phases phaseId = some phase) :
    markPhaseCompletedCore snapshot phaseId nowIso =
      .ok (unblockDependents
            { snapshot with
              phases := assocUpdate snapshot.phases phaseId
                (fun _ => { phase with status := PhaseStatus.COMPLETED, finishedAt := some nowIso })
              nodes := updateNodeStatus snapshot.nodes phaseId PhaseStatus.COMPLETED
              updatedAt := nowIso } phaseId,
          { phase with status := PhaseStatus.COMPLETED, finishedAt := some nowIso },
          phase.status) := by
  unfold markPhaseCompletedCore
  rw [h]

theorem markPhaseReadyForReviewCore_ok (snapshot : WorkflowSnapshot) (phaseId : String)
    (nowIso : Nat) (phase : PhaseSnapshot)
    (h : phasesFind snapshot.phases phaseId = some phase) :
    markPhaseReadyForReviewCore snapshot phaseId nowIso =
      .ok ({ snapshot with
              phases := assocUpdate snapshot.phases phaseId
                (fun _ => { phase with status := PhaseStatus.READY_FOR_REVIEW, finishedAt := some nowIso })
              nodes := updateNodeStatus snapshot.nodes phaseId PhaseStatus.READY_FOR_REVIEW
              updatedAt := nowIso },
          { phase with status := PhaseStatus.READY_FOR_REVIEW, finishedAt := some nowIso },
          phase.status) := by
  unfold markPhaseReadyForReviewCore
  rw [h]

theorem find_after_status_write (snapshot : WorkflowSnapshot) (pid : String)
    (phase4 : PhaseSnapshot) (s : PhaseStatus) (now : Nat)
    (hs : s ≠ PhaseStatus.BLOCKED)
    (hnodup : nodeIdsNodup snapshot)
    (hfound : (lookupFirst snapshot.phases pid).isSome) :
    lookupFirst (unblockDependents
        { snapshot with
          phases := assocUpdate snapshot.phases pid (fun _ => phase4)
          nodes := updateNodeStatus snapshot.nodes pid s
          updatedAt := now } pid).phases pid = some phase4 := by
  rw [unblockDependents_find_of_no_blocked]
  · show lookupFirst (assocUpdate snapshot.phases pid (fun _ => phase4)) pid = some phase4
    rw [lookupFirst_assocUpdate, if_pos rfl]
    cases hp : lookupFirst snapshot.phases pid with
    | none => rw [hp] at hfound; simp at hfound
    | some p => simp
  · intro n hn hpid2
    have := updateNodeStatus_pid_status pid s snapshot.nodes hnodup n hn hpid2
    rw [this]
    exact hs

theorem applyWorkflowAction_ok (st : EngineState) (request : WorkflowActionRequest)
    (phase : PhaseSnapshot)
    (h : phasesFind (ensureRun st request.runId).1.phases request.phaseId = some phase) :
    ∃ (phase4 : PhaseSnapshot) (result : ApplyActionResult),
      (applyWorkflowAction st request).2 = .ok result ∧
      result.response.accepted = true ∧
      result.response.status = STATUS_TRANSITIONS request.action ∧
      phase4.status = STATUS_TRANSITIONS request.action ∧
      (request.action = .RETRY_PHASE →
        phase4.attempt = phase.attempt + 1 ∧ phase4.error = none ∧
          phase4.output = none ∧ phase4.artifacts = []) ∧
      lookupFirst (applyWorkflowAction st request).1.runs request.runId =
        some (unblockDependents
          { (ensureRun st request.runId).1 with
            phases := assocUpdate (ensureRun st request.runId).1.phases request.phaseId
              (fun _ => phase4)
            nodes := updateNodeStatus (ensureRun st request.runId).1.nodes request.phaseId
              (STATUS_TRANSITIONS request.action)
            updatedAt := (ensureRun st request.runId).2.clock } request.phaseId) := by
  obtain ⟨phase4, hcore, hstat, hretry⟩ :=
    applyWorkflowActionCore_ok (ensureRun st request.runId).1 request
      (ensureRun st request.runId).2.clock phase h
  obtain ⟨result, hres1, hres2, hres3⟩ :
      ∃ result, (applyWorkflowAction st request).2 = .ok result ∧
        result.response.accepted = true ∧
        result.response.status = STATUS_TRANSITIONS request.action := by
    unfold applyWorkflowAction
    simp only [hcore]
    exact ⟨_, rfl, rfl, rfl⟩
  refine ⟨phase4, result, hres1, hres2, hres3, hstat, hretry, ?_⟩
  unfold applyWorkflowAction
  simp only [hcore]
  exact lookupFirst_upsert_self _ _ _

theorem markPhaseCompleted_ok (st : EngineState) (runId phaseId actorId : String)
    (reason : Option String) (phase : PhaseSnapshot)
    (h : phasesFind (ensureRun st runId).1.phases phaseId = some phase) :
    ∃ (result : ApplyActionResult),
      (markPhaseCompleted st runId phaseId actorId reason).2 = .ok result ∧
      result.response.accepted = true ∧
      result.response.status = PhaseStatus.COMPLETED ∧
      lookupFirst (markPhaseCompleted st runId phaseId actorId reason).1.runs runId =
        some (unblockDependents
          { (ensureRun st runId).1 with
            phases := assocUpdate (ensureRun st runId).1.phases phaseId
              (fun _ => { phase with status := PhaseStatus.COMPLETED, finishedAt := some (ensureRun st runId).2.clock })
            nodes := updateNodeStatus (ensureRun st runId).1.nodes phaseId
              PhaseStatus.COMPLETED
            updatedAt := (ensureRun st runId).2.clock } phaseId) := by
  have hcore := markPhaseCompletedCore_ok (ensureRun st runId).1 phaseId
    (ensureRun st runId).2.clock phase h
  obtain ⟨result, hres1, hres2, hres3⟩ :
      ∃ result, (markPhaseCompleted st runId phaseId actorId reason).2 = .ok result ∧
        result.response.accepted = true ∧
        result.response.status = PhaseStatus.COMPLETED := by
    unfold markPhaseCompleted
    simp only [hcore]
    exact ⟨_, rfl, rfl, rfl⟩
  refine ⟨result, hres1, hres2, hres3, ?_⟩
  unfold markPhaseCompleted
  simp only [hcore]
  exact lookupFirst_upsert_self _ _ _

theorem markPhaseReadyForReview_ok (st : EngineState) (runId phaseId actorId : String)
    (phase : PhaseSnapshot)
    (h : phasesFind (ensureRun st runId).1.phases phaseId = some phase) :
    ∃ (result : ApplyActionResult),
      (markPhaseReadyForReview st runId phaseId actorId).2 = .ok result ∧
      result.response.accepted = true ∧
      result.response.status = PhaseStatus.READY_FOR_REVIEW ∧
      lookupFirst (markPhaseReadyForReview st runId phaseId actorId).1.runs runId =
        some ({ (ensureRun st runId).1 with
            phases := assocUpdate (ensureRun st runId).1.phases phaseId
              (fun _ => { phase with status := PhaseStatus.READY_FOR_REVIEW, finishedAt := some (ensureRun st runId).2.clock })
            nodes := updateNodeStatus (ensureRun st runId).1.nodes phaseId
              PhaseStatus.READY_FOR_REVIEW
            updatedAt := (ensureRun st runId).2.clock }) := by
  have hcore := markPhaseReadyForReviewCore_ok (ensureRun st runId).1 phaseId
    (ensureRun st runId).2.clock phase h
  obtain ⟨result, hres1, hres2, hres3⟩ :
      ∃ result, (markPhaseReadyForReview st runId phaseId actorId).2 = .ok result ∧
        result.response.accepted = true ∧
        result.response.status = PhaseStatus.READY_FOR_REVIEW := by
    unfold markPhaseReadyForReview
    simp only [hcore]
    exact ⟨_, rfl, rfl, rfl⟩
  refine ⟨result, hres1, hres2, hres3, ?_⟩
  unfold markPhaseReadyForReview
  simp only [hcore]
  exact lookupFirst_upsert_self _ _ _

theorem ensureRun_self (st : EngineState) (runId : String) :
    lookupFirst (ensureRun st runId).2.runs runId = some (ensureRun st runId).1 := by
  unfold ensureRun
  cases h1 : lookupFirst st.runs runId with
  | some existing => simp [h1]
  | none =>
    cases h2 : getRunSnapshot st.db runId with
    | some persisted =>
      simp only
      exact lookupFirst_upsert_self _ _ _
    | none =>
      simp only
      exact lookupFirst_upsert_self _ _ _

theorem ensureRun_idem (st : EngineState) (runId : String) :
    ensureRun (ensureRun st runId).2 runId = ensureRun st runId := by
  conv_lhs => rw [ensureRun]
  rw [ensureRun_self st runId]

theorem ensureRun_of_cached (st : EngineState) (runId : String) (S : WorkflowSnapshot)
    (h : lookupFirst st.runs runId = some S) : ensureRun st runId = (S, st) := by
  unfold ensureRun
  rw [h]

theorem option_isSome_eq_of_none_iff {α β : Type} (a : Option α) (b : Option β)
    (h : (a = none) ↔ (b = none)) : a.isSome = b.isSome := by
  cases a with
  | none => rw [h.mp rfl]; rfl
  | some x =>
    cases b with
    | none => exact absurd (h.mpr rfl) (by simp)
    | some y => rfl

theorem unblockDependents_find_isSome (s : WorkflowSnapshot) (u d : String) :
    (lookupFirst (unblockDependents s u).phases d).isSome =
      (lookupFirst s.phases d).isSome :=
  option_isSome_eq_of_none_iff _ _ (unblockLoop_find_none u d s.nodes s.phases)

theorem assocUpdate_find_isSome {α : Type} (m : List (String × α)) (key d : String)
    (f : α → α) :
    (lookupFirst (assocUpdate m key f) d).isSome = (lookupFirst m d).isSome :=
  option_isSome_eq_of_none_iff _ _ (lookupFirst_assocUpdate_none m key d f)

theorem applyWorkflowAction_presence (st : EngineState) (request : WorkflowActionRequest)
    (phase : PhaseSnapshot)
    (h : phasesFind (ensureRun st request.runId).1.phases request.phaseId = some phase) :
    ∃ S, ensureRun (applyWorkflowAction st request).1 request.runId =
        (S, (applyWorkflowAction st request).1) ∧
      ∀ d, (phasesFind S.phases d).isSome =
        (phasesFind (ensureRun st request.runId).1.phases d).isSome := by
  obtain ⟨phase4, result, _, _, _, _, _, h6⟩ := applyWorkflowAction_ok st request phase h
  refine ⟨_, ensureRun_of_cached _ _ _ h6, ?_⟩
  intro d
  unfold phasesFind
  rw [unblockDependents_find_isSome]
  dsimp only
  exact assocUpdate_find_isSome _ _ _ _

theorem markPhaseCompleted_presence (st : EngineState) (runId phaseId actorId : String)
    (reason : Option String) (phase : PhaseSnapshot)
    (h : phasesFind (ensureRun st runId).1.phases phaseId = some phase) :
    ∃ S, ensureRun (markPhaseCompleted st runId phaseId actorId reason).1 runId =
        (S, (markPhaseCompleted st runId phaseId actorId reason).1) ∧
      ∀ d, (phasesFind S.phases d).isSome =
        (phasesFind (ensureRun st runId).1.phases d).isSome := by
  obtain ⟨result, _, _, _, h4⟩ := markPhaseCompleted_ok st runId phaseId actorId reason phase h
  refine ⟨_, ensureRun_of_cached _ _ _ h4, ?_⟩
  intro d
  unfold phasesFind
  rw [unblockDependents_find_isSome]
  dsimp only
  exact assocUpdate_find_isSome _ _ _ _

theorem persistPhaseOutput_components (st : EngineState) (runId phaseId : String)
    (output : PhaseOutput) (artifactPayloads : List (ArtifactKind × String))
    (h : (phasesFind (ensureRun st runId).1.phases phaseId).isSome = true) :
    ∃ refs S,
      (persistPhaseOutput st runId phaseId output artifactPayloads).2 = .ok refs ∧
      ensureRun (persistPhaseOutput st runId phaseId output artifactPayloads).1 runId =
        (S, (persistPhaseOutput st runId phaseId output artifactPayloads).1) ∧
      ∀ d, (phasesFind S.phases d).isSome =
        (phasesFind (ensureRun st runId).1.phases d).isSome := by
  cases hfind : phasesFind (ensureRun st runId).1.phases phaseId with
  | none => rw [hfind] at h; simp at h
  | some phase =>
    obtain ⟨refs, hrefs⟩ :
        ∃ refs, (persistPhaseOutput st runId phaseId output artifactPayloads).2 =
          .ok refs := by
      unfold persistPhaseOutput
      simp only [hfind]
      exact ⟨_, rfl⟩
    obtain ⟨S, hSlook, hSphases⟩ :
        ∃ S, lookupFirst (persistPhaseOutput st runId phaseId output
            artifactPayloads).1.runs runId = some S ∧
          ∀ d, (lookupFirst S.phases d).isSome =
            (lookupFirst (ensureRun st runId).1.phases d).isSome := by
      unfold persistPhaseOutput
      simp only [hfind]
      refine ⟨_, lookupFirst_upsert_self _ _ _, ?_⟩
      intro d
      dsimp only
      exact assocUpdate_find_isSome _ _ _ _
    refine ⟨refs, S, hrefs, ensureRun_of_cached _ _ _ hSlook, ?_⟩
    intro d
    unfold phasesFind
    exact hSphases d

theorem mem_listArtifactsForPhase_attempt (db : ArtifactDb) (runId phaseId : String)
    (k : Nat) (a : StoredArtifact)
    (ha : a ∈ listArtifactsForPhase db runId phaseId (some k)) : a.attempt = k := by
  unfold listArtifactsForPhase at ha
  rw [mem_sortByCreatedAt] at ha
  have := List.of_mem_filter ha
  simpa using this

theorem publishLoop_eq_map (behavior : String → WorkflowEvent → ListenerBehavior)
    (event : WorkflowEvent) :
    ∀ ls, publishLoop behavior event ls =
      ls.map (fun l => (l, invokeListener behavior l event)) := by
  intro ls
  induction ls with
  | nil => rfl
  | cons l rest ih =>
    unfold publishLoop
    cases h : invokeListener behavior l event with
    | ok u =>
      cases u
      simp only [List.map_cons, h]
      rw [ih]
    | error m =>
      simp only [List.map_cons, h]
      rw [ih]

/-- C5 — getSnapshot is an idempotent read returning an independent deep
copy: two getWorkflowSnapshot calls with no intervening action return
structurally equal documents and the second call leaves the engine state
unchanged; the returned document is the structural clone of the stored
run, so mutating the caller's copy cannot reach engine state. -/
theorem claim_C5_snapshot_read_idempotent (st : EngineState) (runId : String) :
    (getWorkflowSnapshot (getWorkflowSnapshot st runId).2 runId).1 =
        (getWorkflowSnapshot st runId).1 ∧
    (getWorkflowSnapshot (getWorkflowSnapshot st runId).2 runId).2 =
        (getWorkflowSnapshot st runId).2 ∧
    cloneSnapshot (getWorkflowSnapshot st runId).1 = (getWorkflowSnapshot st runId).1 := by
  have h := ensureRun_idem st runId
  refine ⟨?_, ?_, rfl⟩
  · show cloneSnapshot (ensureRun (ensureRun st runId).2 runId).1 =
      cloneSnapshot (ensureRun st runId).1
    rw [h]
  · show (ensureRun (ensureRun st runId).2 runId).2 = (ensureRun st runId).2
    rw [h]

/-- C7 — publishWorkflowEvent delivers the event to every current
subscriber of the event's runId in order, even when some listeners throw:
each listener's exception is caught in the delivery log (never re-raised
to the publisher, since publish is a total function), and delivery to the
remaining subscribers is not prevented. -/
theorem claim_C7_publish_delivers_all (runListeners : List (String × List String))
    (behavior : String → WorkflowEvent → ListenerBehavior) (event : WorkflowEvent)
    (listeners : List String)
    (h : lookupFirst runListeners event.runId = some listeners) :
    publishWorkflowEvent runListeners behavior event =
      listeners.map (fun l => (l, invokeListener behavior l event)) ∧
    (publishWorkflowEvent runListeners behavior event).map Prod.fst = listeners := by
  have hmain : publishWorkflowEvent runListeners behavior event =
      listeners.map (fun l => (l, invokeListener behavior l event)) := by
    unfold publishWorkflowEvent
    rw [h]
    show (if listeners.isEmpty = true then [] else publishLoop behavior event listeners) = _
    by_cases he : listeners.isEmpty
    · rw [if_pos he]
      rw [List.isEmpty_iff.mp he]
      rfl
    · rw [if_neg he]
      exact publishLoop_eq_map behavior event listeners
  refine ⟨hmain, ?_⟩
  rw [hmain, List.map_map]
  exact List.map_id listeners

theorem claim_C7_witness :
    (publishWorkflowEvent [("run_w", ["alpha", "beta"])]
        (fun l _ => if l = "alpha" then ListenerBehavior.throws "boom"
          else ListenerBehavior.ok)
        { eventId := "e1", eventType := "heartbeat", runId := "run_w",
          emittedAt := 0 }).map Prod.fst = ["alpha", "beta"] :=
  (claim_C7_publish_delivers_all _ _ _ _ (by rfl)).2

theorem acquireDbLock_spec (f : Nat → Bool) :
    ∀ (n k : Nat), maxWaitMs / 10 + 1 < k + n → k ≤ maxWaitMs / 10 + 1 →
      (∃ j, k ≤ j ∧ j ≤ maxWaitMs / 10 + 1 ∧ acquireDbLock f k = .ok j ∧ f j = true) ∨
      (acquireDbLock f k = .error "Timed out acquiring workflow DB lock" ∧
        ∀ j, k ≤ j → j ≤ maxWaitMs / 10 + 1 → f j = false) := by
  intro n
  induction n with
  | zero =>
    intro k h1 h2
    omega
  | succ n ih =>
    intro k h1 h2
    by_cases hf : f k = true
    · exact Or.inl ⟨k, le_refl k, h2, by rw [acquireDbLock]; simp [hf], hf⟩
    · have hffalse : f k = false := by
        cases hfk : f k
        · rfl
        · exact absurd hfk hf
      by_cases hk : 10 * k > maxWaitMs
      · refine Or.inr ⟨by rw [acquireDbLock]; simp [hffalse, hk], ?_⟩
        intro j hj1 hj2
        have hjk : j = k := by
          simp only [maxWaitMs] at hk hj2
          omega
        rw [hjk]
        exact hffalse
      · have hrec : acquireDbLock f k = acquireDbLock f (k + 1) := by
          rw [acquireDbLock]
          simp [hffalse, hk]
        have h2' : k + 1 ≤ maxWaitMs / 10 + 1 := by
          simp only [maxWaitMs] at hk ⊢
          omega
        have h1' : maxWaitMs / 10 + 1 < (k + 1) + n := by omega
        rcases ih (k + 1) h1' h2' with ⟨j, hj1, hj2, hj3, hj4⟩ | ⟨herr, hall⟩
        · exact Or.inl ⟨j, by omega, hj2, by rw [hrec]; exact hj3, hj4⟩
        · refine Or.inr ⟨by rw [hrec]; exact herr, ?_⟩
          intro j hj1 hj2
          rcases Nat.eq_or_lt_of_le hj1 with heq | hlt
          · rw [← heq]
            exact hffalse
          · exact hall j hlt hj2

theorem tempDbPath_ne_DB_PATH (pid timestamp : Nat) :
    tempDbPath pid timestamp ≠ DB_PATH := by
  intro heq
  have hlen := congrArg String.length heq
  unfold tempDbPath at hlen
  simp only [String.length_append] at hlen
  have e1 : ".".length = 1 := rfl
  have e2 : ".tmp".length = 4 := rfl
  rw [e1, e2] at hlen
  omega

/-- C8 — every durable-store write under the document lock terminates:
the lock-acquisition loop either acquires the directory lock at some
attempt within the bounded wait (at most maxWaitMs / 10 + 1 attempts,
10 ms apart) or raises the lock-timeout error once the hard timeout has
elapsed — it is a total function, never an unbounded wait — and the
document write itself goes through a temporary file followed by an
atomic rename: writeDb's operation sequence ends with the atomic rename
of the temporary file onto DB_PATH, the serialized document is written
to the temporary file only, and the single direct write to DB_PATH is
ensureDbFile's bootstrap of the empty database document, issued only
when no DB file exists yet — so whenever a committed document already
exists, DB_PATH is never written directly and is replaced only by the
atomic rename. -/
theorem claim_C8_lock_bounded_write_atomic (mkdirSucceeds : Nat → Bool)
    (dbFileExists : Bool) (pid timestamp : Nat) (contents : String) :
    ((∃ k, k ≤ maxWaitMs / 10 + 1 ∧
        acquireDbLock mkdirSucceeds 0 = .ok k ∧ mkdirSucceeds k = true) ∨
      acquireDbLock mkdirSucceeds 0 = .error "Timed out acquiring workflow DB lock") ∧
    (writeDbOps dbFileExists pid timestamp contents).getLast? =
      some (FsOp.rename (tempDbPath pid timestamp) DB_PATH) ∧
    (∀ path c, FsOp.writeFile path c ∈ writeDbOps dbFileExists pid timestamp contents →
      (path = tempDbPath pid timestamp ∧ c = contents) ∨
      (path = DB_PATH ∧ c = emptyDbContents ∧ dbFileExists = false)) ∧
    (dbFileExists = true →
      ∀ path c, FsOp.writeFile path c ∈ writeDbOps dbFileExists pid timestamp contents →
        path ≠ DB_PATH) := by
  refine ⟨?_, ?_, ?_, ?_⟩
  · rcases acquireDbLock_spec mkdirSucceeds (maxWaitMs / 10 + 2) 0 (by omega) (by omega)
      with ⟨j, _, hj2, hj3, hj4⟩ | ⟨herr, _⟩
    · exact Or.inl ⟨j, hj2, hj3, hj4⟩
    · exact Or.inr herr
  · cases dbFileExists <;> rfl
  · intro path c hmem
    unfold writeDbOps ensureDbFileOps at hmem
    cases dbFileExists with
    | true =>
      simp only [if_pos, List.cons_append, List.nil_append, List.mem_cons,
        List.not_mem_nil, or_false] at hmem
      rcases hmem with h | h | h | h
      · cases h
      · cases h
      · injection h with ha hb
        exact Or.inl ⟨ha, hb⟩
      · cases h
    | false =>
      simp only [if_neg, List.cons_append, List.nil_append, List.mem_cons,
        List.not_mem_nil, or_false, Bool.false_eq_true, not_false_eq_true] at hmem
      rcases hmem with h | h | h | h | h
      · cases h
      · cases h
      · injection h with ha hb
        exact Or.inr ⟨ha, hb, rfl⟩
      · injection h with ha hb
        exact Or.inl ⟨ha, hb⟩
      · cases h
  · intro hdb path c hmem
    subst hdb
    unfold writeDbOps ensureDbFileOps at hmem
    simp only [if_pos, List.cons_append, List.nil_append, List.mem_cons,
      List.not_mem_nil, or_false] at hmem
    rcases hmem with h | h | h | h
    · cases h
    · cases h
    · injection h with ha hb
      rw [ha]
      exact tempDbPath_ne_DB_PATH pid timestamp
    · cases h

/-- C9 — applyWorkflowAction performs no transition-validity check: for
every phase present in the run and every one of the four actions, the
action is accepted whatever the phase's current status is, and the
phase's new status (in the response and in the stored run) is the fixed
target of that action from STATUS_TRANSITIONS. -/
theorem claim_C9_no_transition_validity_check (st : EngineState)
    (request : WorkflowActionRequest) (phase : PhaseSnapshot)
    (h : phasesFind (ensureRun st request.runId).1.phases request.phaseId = some phase)
    (hnodup : nodeIdsNodup (ensureRun st request.runId).1) :
    ∃ result : ApplyActionResult,
      (applyWorkflowAction st request).2 = .ok result ∧
      result.response.accepted = true ∧
      result.response.status = STATUS_TRANSITIONS request.action ∧
      ∃ snapshot',
        lookupFirst (applyWorkflowAction st request).1.runs request.runId =
          some snapshot' ∧
        ∃ phase', phasesFind snapshot'.phases request.phaseId = some phase' ∧
          phase'.status = STATUS_TRANSITIONS request.action := by
  obtain ⟨phase4, result, h1, h2, h3, h4, _, h6⟩ := applyWorkflowAction_ok st request phase h
  refine ⟨result, h1, h2, h3, _, h6, phase4, ?_, h4⟩
  apply find_after_status_write
  · exact STATUS_TRANSITIONS_ne_BLOCKED request.action
  · exact hnodup
  · have h' : lookupFirst (ensureRun st request.runId).1.phases request.phaseId =
        some phase := h
    rw [h']
    rfl

theorem claim_C9_witness :
    ∃ result : ApplyActionResult,
      (applyWorkflowAction
          (applyWorkflowAction {} { action := WorkflowActionType.APPROVE_PHASE, runId := "run_w9", phaseId := "phase_d", actorId := "tester" }).1
          { action := WorkflowActionType.APPROVE_PHASE, runId := "run_w9", phaseId := "phase_d", actorId := "tester" }).2 = .ok result ∧
      result.response.accepted = true ∧
      result.response.status = STATUS_TRANSITIONS WorkflowActionType.APPROVE_PHASE ∧
      ∃ snapshot',
        lookupFirst (applyWorkflowAction
            (applyWorkflowAction {} { action := WorkflowActionType.APPROVE_PHASE, runId := "run_w9", phaseId := "phase_d", actorId := "tester" }).1
            { action := WorkflowActionType.APPROVE_PHASE, runId := "run_w9", phaseId := "phase_d", actorId := "tester" }).1.runs "run_w9" =
          some snapshot' ∧
        ∃ phase', phasesFind snapshot'.phases "phase_d" = some phase' ∧
          phase'.status = STATUS_TRANSITIONS WorkflowActionType.APPROVE_PHASE :=
  claim_C9_no_transition_validity_check _ _
    { runId := "run_w9", phaseId := "phase_d", attempt := 1, status := PhaseStatus.APPROVED, finishedAt := some 1 }
    (by decide) (by unfold nodeIdsNodup; decide)

/-- C1 — the node list and the phases map never disagree on status: each
of the engine's action-application routines (applyWorkflowAction,
markPhaseCompleted, markPhaseReadyForReview, including the
resolver-triggered unblocking they perform) preserves the agreement
invariant: starting from a well-formed run (one node per phase id, node
list and phases map in agreement), the run document stored when the call
returns still satisfies the agreement for every node whose phaseId is a
key of the phases map. -/
theorem claim_C1_nodes_phases_agreement :
    (∀ (st : EngineState) (request : WorkflowActionRequest) (s' : WorkflowSnapshot),
      nodeIdsNodup (ensureRun st request.runId).1 →
      nodesAgreeWithPhases (ensureRun st request.runId).1 →
      lookupFirst (applyWorkflowAction st request).1.runs request.runId = some s' →
      nodesAgreeWithPhases s') ∧
    (∀ (st : EngineState) (runId phaseId actorId : String) (reason : Option String)
        (s' : WorkflowSnapshot),
      nodeIdsNodup (ensureRun st runId).1 →
      nodesAgreeWithPhases (ensureRun st runId).1 →
      lookupFirst (markPhaseCompleted st runId phaseId actorId reason).1.runs runId =
        some s' →
      nodesAgreeWithPhases s') ∧
    (∀ (st : EngineState) (runId phaseId actorId : String) (s' : WorkflowSnapshot),
      nodeIdsNodup (ensureRun st runId).1 →
      nodesAgreeWithPhases (ensureRun st runId).1 →
      lookupFirst (markPhaseReadyForReview st runId phaseId actorId).1.runs runId =
        some s' →
      nodesAgreeWithPhases s') := by
  refine ⟨?_, ?_, ?_⟩
  · intro st request s' hnodup hagree hlook
    cases hfind : phasesFind (ensureRun st request.runId).1.phases request.phaseId with
    | none =>
      have hcore : applyWorkflowActionCore (ensureRun st request.runId).1 request
          (ensureRun st request.runId).2.clock = .error ("Unknown phaseId '"
            ++ request.phaseId ++ "' for run '" ++ request.runId ++ "'") := by
        unfold applyWorkflowActionCore
        rw [hfind]
      have happ : applyWorkflowAction st request =
          ((ensureRun st request.runId).2, .error ("Unknown phaseId '"
            ++ request.phaseId ++ "' for run '" ++ request.runId ++ "'")) := by
        unfold applyWorkflowAction
        simp only [hcore]
      rw [happ] at hlook
      rw [ensureRun_self st request.runId] at hlook
      cases hlook
      exact hagree
    | some phase =>
      obtain ⟨phase4, result, _, _, _, h4, _, h6⟩ :=
        applyWorkflowAction_ok st request phase hfind
      rw [h6] at hlook
      cases hlook
      apply unblockDependents_agree
      · unfold nodeIdsNodup
        dsimp only
        rw [updateNodeStatus_ids]
        exact hnodup
      · intro n' hmem
        apply agree_updateNodeStatus (ensureRun st request.runId).1.phases
          (assocUpdate (ensureRun st request.runId).1.phases request.phaseId
            (fun _ => phase4))
          request.phaseId (STATUS_TRANSITIONS request.action) ?hother ?hpid
          (ensureRun st request.runId).1.nodes hnodup hagree n' hmem
        case hother =>
          intro d hd
          rw [lookupFirst_assocUpdate, if_neg hd]
        case hpid =>
          intro p hp
          have hfind' : lookupFirst (ensureRun st request.runId).1.phases
              request.phaseId = some phase := hfind
          rw [lookupFirst_assocUpdate, if_pos rfl, hfind'] at hp
          cases hp
          exact h4
  · intro st runId phaseId actorId reason s' hnodup hagree hlook
    cases hfind : phasesFind (ensureRun st runId).1.phases phaseId with
    | none =>
      have hcore : markPhaseCompletedCore (ensureRun st runId).1 phaseId
          (ensureRun st runId).2.clock = .error ("Unknown phaseId '"
            ++ phaseId ++ "'") := by
        unfold markPhaseCompletedCore
        rw [hfind]
      have happ : markPhaseCompleted st runId phaseId actorId reason =
          ((ensureRun st runId).2, .error ("Unknown phaseId '" ++ phaseId ++ "'")) := by
        unfold markPhaseCompleted
        simp only [hcore]
      rw [happ] at hlook
      rw [ensureRun_self st runId] at hlook
      cases hlook
      exact hagree
    | some phase =>
      obtain ⟨result, _, _, _, h4⟩ :=
        markPhaseCompleted_ok st runId phaseId actorId reason phase hfind
      rw [h4] at hlook
      cases hlook
      apply unblockDependents_agree
      · unfold nodeIdsNodup
        dsimp only
        rw [updateNodeStatus_ids]
        exact hnodup
      · intro n' hmem
        apply agree_updateNodeStatus (ensureRun st runId).1.phases
          (assocUpdate (ensureRun st runId).1.phases phaseId
            (fun _ => { phase with status := PhaseStatus.COMPLETED, finishedAt := some (ensureRun st runId).2.clock }))
          phaseId PhaseStatus.COMPLETED ?hother2 ?hpid2
          (ensureRun st runId).1.nodes hnodup hagree n' hmem
        case hother2 =>
          intro d hd
          rw [lookupFirst_assocUpdate, if_neg hd]
        case hpid2 =>
          intro p hp
          have hfind' : lookupFirst (ensureRun st runId).1.phases phaseId =
              some phase := hfind
          rw [lookupFirst_assocUpdate, if_pos rfl, hfind'] at hp
          cases hp
          rfl
  · intro st runId phaseId actorId s' hnodup hagree hlook
    cases hfind : phasesFind (ensureRun st runId).1.phases phaseId with
    | none =>
      have hcore : markPhaseReadyForReviewCore (ensureRun st runId).1 phaseId
          (ensureRun st runId).2.clock = .error ("Unknown phaseId '"
            ++ phaseId ++ "'") := by
        unfold markPhaseReadyForReviewCore
        rw [hfind]
      have happ : markPhaseReadyForReview st runId phaseId actorId =
          ((ensureRun st runId).2, .error ("Unknown phaseId '" ++ phaseId ++ "'")) := by
        unfold markPhaseReadyForReview
        simp only [hcore]
      rw [happ] at hlook
      rw [ensureRun_self st runId] at hlook
      cases hlook
      exact hagree
    | some phase =>
      obtain ⟨result, _, _, _, h4⟩ :=
        markPhaseReadyForReview_ok st runId phaseId actorId phase hfind
      rw [h4] at hlook
      cases hlook
      intro n' hmem
      apply agree_updateNodeStatus (ensureRun st runId).1.phases
        (assocUpdate (ensureRun st runId).1.phases phaseId
          (fun _ => { phase with status := PhaseStatus.READY_FOR_REVIEW, finishedAt := some (ensureRun st runId).2.clock }))
        phaseId PhaseStatus.READY_FOR_REVIEW ?hother3 ?hpid3
        (ensureRun st runId).1.nodes hnodup hagree n' hmem
      case hother3 =>
        intro d hd
        rw [lookupFirst_assocUpdate, if_neg hd]
      case hpid3 =>
        intro p hp
        have hfind' : lookupFirst (ensureRun st runId).1.phases phaseId =
            some phase := hfind
        rw [lookupFirst_assocUpdate, if_pos rfl, hfind'] at hp
        cases hp
        rfl

theorem claim_C1_witness :
    nodesAgreeWithPhases (getWorkflowSnapshot
      (applyWorkflowAction {} { action := WorkflowActionType.APPROVE_PHASE, runId := "run_w1", phaseId := "phase_b", actorId := "tester" }).1 "run_w1").1 :=
  claim_C1_nodes_phases_agreement.1 {}
    { action := WorkflowActionType.APPROVE_PHASE, runId := "run_w1", phaseId := "phase_b", actorId := "tester" }
    _ (by unfold nodeIdsNodup; decide) (by unfold nodesAgreeWithPhases; decide) (by rfl)

/-- C2 — dependency-driven unblocking: in the resolver, a BLOCKED node
that depends on the just-updated phase transitions to DRAFT if and only
if every phase in its declared dependency list has a satisfied status
(COMPLETED or APPROVED); otherwise it stays exactly as it was.  In the
seeded five-phase run, where phase_d depends on both phase_b and
phase_c, approving phase_b alone leaves phase_d BLOCKED, and
subsequently approving phase_c flips phase_d to DRAFT in both the phases
map and the node list. -/
theorem claim_C2_unblock_iff_dependencies_satisfied :
    (∀ (snapshot : WorkflowSnapshot) (u : String) (i : Nat) (n : WorkflowNode),
      nodeIdsNodup snapshot → nodesAgreeWithPhases snapshot →
      snapshot.nodes.get? i = some n →
      n.status = PhaseStatus.BLOCKED →
      u ∈ n.dependsOn →
      (((unblockDependents snapshot u).nodes.get? i =
          some { n with status := PhaseStatus.DRAFT }) ↔
        dependenciesSatisfied snapshot.phases n.dependsOn = true) ∧
      (dependenciesSatisfied snapshot.phases n.dependsOn = false →
        (unblockDependents snapshot u).nodes.get? i = some n)) ∧
    ((phasesFind (getWorkflowSnapshot (applyWorkflowAction {} { action := WorkflowActionType.APPROVE_PHASE, runId := "run_s", phaseId := "phase_b", actorId := "qa" }).1 "run_s").1.phases "phase_d").map (fun p => p.status) = some PhaseStatus.BLOCKED ∧
      (phasesFind (getWorkflowSnapshot (applyWorkflowAction (applyWorkflowAction {} { action := WorkflowActionType.APPROVE_PHASE, runId := "run_s", phaseId := "phase_b", actorId := "qa" }).1 { action := WorkflowActionType.APPROVE_PHASE, runId := "run_s", phaseId := "phase_c", actorId := "qa" }).1 "run_s").1.phases "phase_d").map (fun p => p.status) = some PhaseStatus.DRAFT ∧
      ((getWorkflowSnapshot (applyWorkflowAction (applyWorkflowAction {} { action := WorkflowActionType.APPROVE_PHASE, runId := "run_s", phaseId := "phase_b", actorId := "qa" }).1 { action := WorkflowActionType.APPROVE_PHASE, runId := "run_s", phaseId := "phase_c", actorId := "qa" }).1 "run_s").1.nodes.filter (fun n => n.phaseId == "phase_d")).map (fun n => n.status) = [PhaseStatus.DRAFT]) := by
  constructor
  · intro snapshot u i n hnodup hagree hget hblk hdep
    have hblocked : ∀ m ∈ snapshot.nodes, m.status = PhaseStatus.BLOCKED →
        ∀ p, lookupFirst snapshot.phases m.phaseId = some p →
          p.status = PhaseStatus.BLOCKED := by
      intro m hm hmblk p hp
      have hag := hagree m hm
      unfold nodeAgrees phasesFind at hag
      rw [hp] at hag
      rw [beq_iff_eq] at hag
      rw [← hag]
      exact hmblk
    have hnodes := unblockLoop_nodes_eq u snapshot.nodes snapshot.phases hnodup hblocked
    have hcontains : n.dependsOn.contains u = true := by
      simpa using hdep
    have hbeq : (n.status == PhaseStatus.BLOCKED) = true := by
      rw [hblk]
      rfl
    have hget' : (unblockDependents snapshot u).nodes.get? i =
        some (if n.dependsOn.contains u && n.status == PhaseStatus.BLOCKED
            && dependenciesSatisfied snapshot.phases n.dependsOn
          then { n with status := PhaseStatus.DRAFT } else n) := by
      show (unblockLoop snapshot.phases u snapshot.nodes).2.get? i = _
      rw [hnodes, List.get?_map, hget]
      rfl
    cases hsat : dependenciesSatisfied snapshot.phases n.dependsOn with
    | false =>
      have hcond : (n.dependsOn.contains u && n.status == PhaseStatus.BLOCKED
          && dependenciesSatisfied snapshot.phases n.dependsOn) = false := by
        rw [hsat]
        simp
      rw [hcond] at hget'
      simp only [if_neg Bool.false_ne_true] at hget'
      refine ⟨⟨?_, ?_⟩, fun _ => hget'⟩
      · intro hL
        rw [hget'] at hL
        have hn : n = { n with status := PhaseStatus.DRAFT } :=
          Option.some.inj hL
        have : n.status = PhaseStatus.DRAFT := by
          rw [hn]
        rw [hblk] at this
        cases this
      · intro hcontra
        cases hcontra
    | true =>
      have hcond : (n.dependsOn.contains u && n.status == PhaseStatus.BLOCKED
          && dependenciesSatisfied snapshot.phases n.dependsOn) = true := by
        rw [hsat, hcontains, hbeq]
        rfl
      rw [hcond] at hget'
      simp only [if_pos] at hget'
      exact ⟨⟨fun _ => rfl, fun _ => hget'⟩, fun hcontra => by cases hcontra⟩
  · refine ⟨by decide, by decide, by decide⟩

theorem claim_C2_witness :
    (unblockDependents (ensureRun ({} : EngineState) "run_w2").1 "phase_a").nodes.get? 1 =
      some { phaseId := "phase_b", label := "Variant B", phaseType := PhaseType.LLM, status := PhaseStatus.BLOCKED, dependsOn := ["phase_a"] } :=
  (claim_C2_unblock_iff_dependencies_satisfied.1
    (ensureRun ({} : EngineState) "run_w2").1 "phase_a" 1
    { phaseId := "phase_b", label := "Variant B", phaseType := PhaseType.LLM, status := PhaseStatus.BLOCKED, dependsOn := ["phase_a"] }
    (by unfold nodeIdsNodup; decide) (by unfold nodesAgreeWithPhases; decide)
    (by decide) (by decide) (by decide)).2 (by decide)

/-- C4 — RETRY_PHASE increments the phase's attempt from k to k + 1 and
clears its error, output and artifact references, and the artifact
listing scoped to the phase's current attempt afterwards returns only
artifacts stored with attempt k + 1 — in particular every artifact
persisted under attempt k is absent from it. -/
theorem claim_C4_retry_clears_and_scopes (st : EngineState)
    (request : WorkflowActionRequest) (phase : PhaseSnapshot)
    (hact : request.action = WorkflowActionType.RETRY_PHASE)
    (h : phasesFind (ensureRun st request.runId).1.phases request.phaseId = some phase)
    (hnodup : nodeIdsNodup (ensureRun st request.runId).1) :
    ∃ (result : ApplyActionResult) (snapshot' : WorkflowSnapshot)
      (phase' : PhaseSnapshot),
      (applyWorkflowAction st request).2 = .ok result ∧
      lookupFirst (applyWorkflowAction st request).1.runs request.runId =
        some snapshot' ∧
      phasesFind snapshot'.phases request.phaseId = some phase' ∧
      phase'.attempt = phase.attempt + 1 ∧
      phase'.error = none ∧ phase'.output = none ∧ phase'.artifacts = [] ∧
      (∀ a ∈ (getPhaseStoredArtifacts (applyWorkflowAction st request).1
          request.runId request.phaseId).1, a.attempt = phase.attempt + 1) ∧
      (∀ a, a.attempt = phase.attempt →
        a ∉ (getPhaseStoredArtifacts (applyWorkflowAction st request).1
          request.runId request.phaseId).1) := by
  obtain ⟨phase4, result, h1, _, _, _, hretry, h6⟩ :=
    applyWorkflowAction_ok st request phase h
  obtain ⟨hatt, herr, hout, hart⟩ := hretry hact
  have hfind' := find_after_status_write (ensureRun st request.runId).1
    request.phaseId phase4 (STATUS_TRANSITIONS request.action)
    (ensureRun st request.runId).2.clock
    (STATUS_TRANSITIONS_ne_BLOCKED request.action) hnodup
    (by rw [show lookupFirst (ensureRun st request.runId).1.phases request.phaseId =
      some phase from h]; rfl)
  have hens := ensureRun_of_cached (applyWorkflowAction st request).1
    request.runId _ h6
  have hlist : (getPhaseStoredArtifacts (applyWorkflowAction st request).1
      request.runId request.phaseId).1 =
      listArtifactsForPhase (applyWorkflowAction st request).1.db request.runId
        request.phaseId (some phase4.attempt) := by
    unfold getPhaseStoredArtifacts
    simp only [hens]
    simp only [show phasesFind (unblockDependents
        { (ensureRun st request.runId).1 with
          phases := assocUpdate (ensureRun st request.runId).1.phases request.phaseId
            (fun _ => phase4)
          nodes := updateNodeStatus (ensureRun st request.runId).1.nodes
            request.phaseId (STATUS_TRANSITIONS request.action)
          updatedAt := (ensureRun st request.runId).2.clock } request.phaseId).phases
        request.phaseId = some phase4 from hfind']
  refine ⟨result, _, phase4, h1, h6, hfind', hatt, herr, hout, hart, ?_, ?_⟩
  · intro a ha
    rw [hlist] at ha
    have := mem_listArtifactsForPhase_attempt _ _ _ _ a ha
    rw [this, hatt]
  · intro a hattempt hmem
    rw [hlist] at hmem
    have := mem_listArtifactsForPhase_attempt _ _ _ _ a hmem
    rw [hattempt, hatt] at this
    omega

theorem claim_C4_witness :
    ∃ (result : ApplyActionResult) (snapshot' : WorkflowSnapshot)
      (phase' : PhaseSnapshot),
      (applyWorkflowAction (persistPhaseOutput (applyWorkflowAction {} { action := WorkflowActionType.START_PHASE, runId := "run_w4", phaseId := "phase_b", actorId := "t" }).1 "run_w4" "phase_b" { payload := "diff attempt 1" } [(ArtifactKind.diff, "d1")]).1 { action := WorkflowActionType.RETRY_PHASE, runId := "run_w4", phaseId := "phase_b", actorId := "t" }).2 = .ok result ∧
      lookupFirst (applyWorkflowAction (persistPhaseOutput (applyWorkflowAction {} { action := WorkflowActionType.START_PHASE, runId := "run_w4", phaseId := "phase_b", actorId := "t" }).1 "run_w4" "phase_b" { payload := "diff attempt 1" } [(ArtifactKind.diff, "d1")]).1 { action := WorkflowActionType.RETRY_PHASE, runId := "run_w4", phaseId := "phase_b", actorId := "t" }).1.runs "run_w4" = some snapshot' ∧
      phasesFind snapshot'.phases "phase_b" = some phase' ∧
      phase'.attempt = 1 + 1 ∧
      phase'.error = none ∧ phase'.output = none ∧ phase'.artifacts = [] ∧
      (∀ a ∈ (getPhaseStoredArtifacts (applyWorkflowAction (persistPhaseOutput (applyWorkflowAction {} { action := WorkflowActionType.START_PHASE, runId := "run_w4", phaseId := "phase_b", actorId := "t" }).1 "run_w4" "phase_b" { payload := "diff attempt 1" } [(ArtifactKind.diff, "d1")]).1 { action := WorkflowActionType.RETRY_PHASE, runId := "run_w4", phaseId := "phase_b", actorId := "t" }).1 "run_w4" "phase_b").1, a.attempt = 1 + 1) ∧
      (∀ a, a.attempt = 1 →
        a ∉ (getPhaseStoredArtifacts (applyWorkflowAction (persistPhaseOutput (applyWorkflowAction {} { action := WorkflowActionType.START_PHASE, runId := "run_w4", phaseId := "phase_b", actorId := "t" }).1 "run_w4" "phase_b" { payload := "diff attempt 1" } [(ArtifactKind.diff, "d1")]).1 { action := WorkflowActionType.RETRY_PHASE, runId := "run_w4", phaseId := "phase_b", actorId := "t" }).1 "run_w4" "phase_b").1) :=
  claim_C4_retry_clears_and_scopes
    (persistPhaseOutput (applyWorkflowAction {} { action := WorkflowActionType.START_PHASE, runId := "run_w4", phaseId := "phase_b", actorId := "t" }).1 "run_w4" "phase_b" { payload := "diff attempt 1" } [(ArtifactKind.diff, "d1")]).1
    { action := WorkflowActionType.RETRY_PHASE, runId := "run_w4", phaseId := "phase_b", actorId := "t" }
    { runId := "run_w4", phaseId := "phase_b", attempt := 1, status := PhaseStatus.RUNNING, startedAt := some 1, finishedAt := none, error := none, output := some { payload := "diff attempt 1" }, artifacts := [{ artifactId := "art_1", kind := ArtifactKind.diff, uri := "db://artifacts/art_1" }] }
    (by decide) (by decide) (by unfold nodeIdsNodup; decide)

/-- C6 — resetWorkflowRun discards the run's in-memory and durable state
and re-seeds it from the workflow definition: whatever the prior engine
state, after the reset the lead gate phase phase_a is DRAFT with attempt
1 and no output, error or artifacts, and its immediate dependents
phase_b and phase_c are BLOCKED, in both the phases map and the node
list. -/
theorem claim_C6_reset_reseeds_gate (st : EngineState) (runId : String) :
    (phasesFind (resetWorkflowRun st runId).1.phases "phase_a").map
        (fun p => (p.status, p.attempt, p.output, p.error, p.artifacts)) =
      some (PhaseStatus.DRAFT, 1, none, none, []) ∧
    (phasesFind (resetWorkflowRun st runId).1.phases "phase_b").map
        (fun p => p.status) = some PhaseStatus.BLOCKED ∧
    (phasesFind (resetWorkflowRun st runId).1.phases "phase_c").map
        (fun p => p.status) = some PhaseStatus.BLOCKED ∧
    ((resetWorkflowRun st runId).1.nodes.filter
        (fun n => n.phaseId == "phase_a")).map (fun n => n.status) =
      [PhaseStatus.DRAFT] ∧
    ((resetWorkflowRun st runId).1.nodes.filter
        (fun n => n.phaseId == "phase_b")).map (fun n => n.status) =
      [PhaseStatus.BLOCKED] ∧
    ((resetWorkflowRun st runId).1.nodes.filter
        (fun n => n.phaseId == "phase_c")).map (fun n => n.status) =
      [PhaseStatus.BLOCKED] := by
  have h1 : lookupFirst (st.runs.filter (fun kv => kv.1 ≠ runId)) runId = none :=
    lookupFirst_filter_ne st.runs runId
  have h2 : lookupFirst (st.db.runs.filter (fun kv => kv.1 ≠ runId)) runId = none :=
    lookupFirst_filter_ne st.db.runs runId
  unfold resetWorkflowRun getWorkflowSnapshot cloneSnapshot ensureRun getRunSnapshot
    deleteRunData
  simp only [h1, h2]
  simp [normalizePhaseAGate, snapshotTemplate, assocUpdate, resetPhaseTo,
    phasesFind, lookupFirst, cloneSnapshot]

theorem stepSnapshotOp_missing_dep (s : WorkflowSnapshot) (op : EngineOp) (now : Nat)
    (i : Nat) (n : WorkflowNode) (dep : String)
    (hget : s.nodes.get? i = some n)
    (hdep : dep ∈ n.dependsOn)
    (hmissing : phasesFind s.phases dep = none)
    (hstatus : n.status ≠ PhaseStatus.DRAFT) :
    ∃ n1, (stepSnapshotOp s op now).nodes.get? i = some n1 ∧
      n1.phaseId = n.phaseId ∧ n1.dependsOn = n.dependsOn ∧
      n1.status ≠ PhaseStatus.DRAFT ∧
      phasesFind (stepSnapshotOp s op now).phases dep = none := by
  cases op with
  | applyAction request =>
    cases hfind : phasesFind s.phases request.phaseId with
    | none =>
      have hstep : stepSnapshotOp s (EngineOp.applyAction request) now = s := by
        unfold stepSnapshotOp applyWorkflowActionCore
        simp only [hfind]
      rw [hstep]
      exact ⟨n, hget, rfl, rfl, hstatus, hmissing⟩
    | some phase =>
      obtain ⟨phase4, hcore, _, _⟩ := applyWorkflowActionCore_ok s request now phase hfind
      have hstep : stepSnapshotOp s (EngineOp.applyAction request) now =
          unblockDependents
            { s with
              phases := assocUpdate s.phases request.phaseId (fun _ => phase4)
              nodes := updateNodeStatus s.nodes request.phaseId
                (STATUS_TRANSITIONS request.action)
              updatedAt := now } request.phaseId := by
        unfold stepSnapshotOp
        simp only [hcore]
      rw [hstep]
      obtain ⟨n1, hn1, hpid1, hdep1, hstat1⟩ :=
        updateNodeStatus_get? request.phaseId (STATUS_TRANSITIONS request.action)
          s.nodes i n hget
      have hmissing2 : lookupFirst (assocUpdate s.phases request.phaseId
          (fun _ => phase4)) dep = none :=
        (lookupFirst_assocUpdate_none s.phases request.phaseId dep _).mpr hmissing
      have hdep2 : dep ∈ n1.dependsOn := by rw [hdep1]; exact hdep
      refine ⟨n1, ?_, hpid1, hdep1, ?_, ?_⟩
      · exact unblockLoop_get_missing_dep request.phaseId dep _ _ i n1 hn1 hdep2 hmissing2
      · rcases hstat1 with hsame | htrans
        · rw [hsame]; exact hstatus
        · rw [htrans]; exact STATUS_TRANSITIONS_ne_DRAFT request.action
      · exact (unblockLoop_find_none request.phaseId dep _ _).mpr hmissing2
  | completePhase phaseId =>
    cases hfind : phasesFind s.phases phaseId with
    | none =>
      have hstep : stepSnapshotOp s (EngineOp.completePhase phaseId) now = s := by
        unfold stepSnapshotOp markPhaseCompletedCore
        simp only [hfind]
      rw [hstep]
      exact ⟨n, hget, rfl, rfl, hstatus, hmissing⟩
    | some phase =>
      have hcore := markPhaseCompletedCore_ok s phaseId now phase hfind
      have hstep : stepSnapshotOp s (EngineOp.completePhase phaseId) now =
          unblockDependents
            { s with
              phases := assocUpdate s.phases phaseId
                (fun _ => { phase with status := PhaseStatus.COMPLETED, finishedAt := some now })
              nodes := updateNodeStatus s.nodes phaseId PhaseStatus.COMPLETED
              updatedAt := now } phaseId := by
        unfold stepSnapshotOp
        simp only [hcore]
      rw [hstep]
      obtain ⟨n1, hn1, hpid1, hdep1, hstat1⟩ :=
        updateNodeStatus_get? phaseId PhaseStatus.COMPLETED s.nodes i n hget
      have hmissing2 : lookupFirst (assocUpdate s.phases phaseId
          (fun _ => { phase with status := PhaseStatus.COMPLETED, finishedAt := some now }))
            dep = none :=
        (lookupFirst_assocUpdate_none s.phases phaseId dep _).mpr hmissing
      have hdep2 : dep ∈ n1.dependsOn := by rw [hdep1]; exact hdep
      refine ⟨n1, ?_, hpid1, hdep1, ?_, ?_⟩
      · exact unblockLoop_get_missing_dep phaseId dep _ _ i n1 hn1 hdep2 hmissing2
      · rcases hstat1 with hsame | htrans
        · rw [hsame]; exact hstatus
        · rw [htrans]; intro hcontra; cases hcontra
      · exact (unblockLoop_find_none phaseId dep _ _).mpr hmissing2
  | readyForReview phaseId =>
    cases hfind : phasesFind s.phases phaseId with
    | none =>
      have hstep : stepSnapshotOp s (EngineOp.readyForReview phaseId) now = s := by
        unfold stepSnapshotOp markPhaseReadyForReviewCore
        simp only [hfind]
      rw [hstep]
      exact ⟨n, hget, rfl, rfl, hstatus, hmissing⟩
    | some phase =>
      have hcore := markPhaseReadyForReviewCore_ok s phaseId now phase hfind
      have hstep : stepSnapshotOp s (EngineOp.readyForReview phaseId) now =
          { s with
            phases := assocUpdate s.phases phaseId
              (fun _ => { phase with status := PhaseStatus.READY_FOR_REVIEW, finishedAt := some now })
            nodes := updateNodeStatus s.nodes phaseId PhaseStatus.READY_FOR_REVIEW
            updatedAt := now } := by
        unfold stepSnapshotOp
        simp only [hcore]
      rw [hstep]
      obtain ⟨n1, hn1, hpid1, hdep1, hstat1⟩ :=
        updateNodeStatus_get? phaseId PhaseStatus.READY_FOR_REVIEW s.nodes i n hget
      refine ⟨n1, hn1, hpid1, hdep1, ?_, ?_⟩
      · rcases hstat1 with hsame | htrans
        · rw [hsame]; exact hstatus
        · rw [htrans]; intro hcontra; cases hcontra
      · show lookupFirst (assocUpdate s.phases phaseId
            (fun _ => { phase with status := PhaseStatus.READY_FOR_REVIEW, finishedAt := some now })) dep = none
        exact (lookupFirst_assocUpdate_none s.phases phaseId dep _).mpr hmissing

/-- C10 — a dependency id absent from the run's phases map counts as
unsatisfied in the dependency resolver, so a node whose dependency list
names a nonexistent phase is never flipped to DRAFT by the resolver: for
every sequence of status-mutating engine routines, the node keeps a
non-DRAFT status (direct actions only ever assign RUNNING, APPROVED,
REJECTED, COMPLETED or READY_FOR_REVIEW) and the dependency stays
missing. -/
theorem claim_C10_missing_dependency_never_unblocks (s0 : WorkflowSnapshot)
    (ops : List (EngineOp × Nat)) (i : Nat) (n : WorkflowNode) (dep : String)
    (hget : s0.nodes.get? i = some n)
    (hdep : dep ∈ n.dependsOn)
    (hmissing : phasesFind s0.phases dep = none)
    (hstatus : n.status ≠ PhaseStatus.DRAFT) :
    ∃ n', (runSnapshotOps s0 ops).nodes.get? i = some n' ∧
      n'.phaseId = n.phaseId ∧ n'.dependsOn = n.dependsOn ∧
      n'.status ≠ PhaseStatus.DRAFT ∧
      phasesFind (runSnapshotOps s0 ops).phases dep = none := by
  induction ops generalizing s0 n with
  | nil => exact ⟨n, hget, rfl, rfl, hstatus, hmissing⟩
  | cons op rest ih =>
    obtain ⟨n1, hn1, hpid1, hdep1, hstat1, hmiss1⟩ :=
      stepSnapshotOp_missing_dep s0 op.1 op.2 i n dep hget hdep hmissing hstatus
    have hdep2 : dep ∈ n1.dependsOn := by rw [hdep1]; exact hdep
    obtain ⟨n', hn', hpid', hdep', hstat', hmiss'⟩ :=
      ih (stepSnapshotOp s0 op.1 op.2) n1 hn1 hdep2 hmiss1 hstat1
    refine ⟨n', hn', ?_, ?_, hstat', hmiss'⟩
    · rw [hpid', hpid1]
    · rw [hdep', hdep1]

theorem claim_C10_witness :
    ∃ n', (runSnapshotOps
        { runId := "run_w10", workflowId := "w", workflowVersion := 1, createdAt := 0, updatedAt := 0,
          nodes := [{ phaseId := "phase_x", label := "X", phaseType := PhaseType.LLM, status := PhaseStatus.BLOCKED, dependsOn := ["ghost_phase"] }],
          edges := [],
          phases := [("phase_x", { runId := "run_w10", phaseId := "phase_x", attempt := 1, status := PhaseStatus.BLOCKED })] }
        [(EngineOp.applyAction { action := WorkflowActionType.APPROVE_PHASE, runId := "run_w10", phaseId := "phase_x", actorId := "t" }, 5),
          (EngineOp.completePhase "phase_x", 6)]).nodes.get? 0 = some n' ∧
      n'.phaseId = "phase_x" ∧ n'.dependsOn = ["ghost_phase"] ∧
      n'.status ≠ PhaseStatus.DRAFT ∧
      phasesFind (runSnapshotOps
        { runId := "run_w10", workflowId := "w", workflowVersion := 1, createdAt := 0, updatedAt := 0,
          nodes := [{ phaseId := "phase_x", label := "X", phaseType := PhaseType.LLM, status := PhaseStatus.BLOCKED, dependsOn := ["ghost_phase"] }],
          edges := [],
          phases := [("phase_x", { runId := "run_w10", phaseId := "phase_x", attempt := 1, status := PhaseStatus.BLOCKED })] }
        [(EngineOp.applyAction { action := WorkflowActionType.APPROVE_PHASE, runId := "run_w10", phaseId := "phase_x", actorId := "t" }, 5),
          (EngineOp.completePhase "phase_x", 6)]).phases "ghost_phase" = none :=
  claim_C10_missing_dependency_never_unblocks _ _ 0
    { phaseId := "phase_x", label := "X", phaseType := PhaseType.LLM, status := PhaseStatus.BLOCKED, dependsOn := ["ghost_phase"] }
    "ghost_phase" (by decide) (by decide) (by decide) (by decide)

theorem collectRefinements_successes_iff (inductionSpecs : List InductionSpec) :
    ∀ results : List BatchLlmCallResultItem,
      ((collectRefinements inductionSpecs results).1 ≠ [] ↔
        ∃ r ∈ results, r.status = BatchStatus.SUCCESS ∧
          (inductionSpecs.find? (fun c => c.variantId == r.key)).isSome = true) := by
  intro results
  induction results with
  | nil => simp [collectRefinements]
  | cons r rest ih =>
    unfold collectRefinements
    cases hfind : inductionSpecs.find? (fun c => c.variantId == r.key) with
    | none =>
      simp only
      rw [ih]
      constructor
      · rintro ⟨x, hx, hs, hf⟩
        exact ⟨x, List.mem_cons_of_mem r hx, hs, hf⟩
      · rintro ⟨x, hx, hs, hf⟩
        rcases List.mem_cons.mp hx with hhead | htail
        · subst hhead
          rw [hfind] at hf
          simp at hf
        · exact ⟨x, htail, hs, hf⟩
    | some spec =>
      cases hstat : r.status with
      | SUCCESS =>
        simp only
        constructor
        · intro _
          exact ⟨r, List.mem_cons_self r rest, hstat, by rw [hfind]; rfl⟩
        · intro _
          simp
      | FAILURE =>
        simp only
        rw [ih]
        constructor
        · rintro ⟨x, hx, hs, hf⟩
          exact ⟨x, List.mem_cons_of_mem r hx, hs, hf⟩
        · rintro ⟨x, hx, hs, hf⟩
          rcases List.mem_cons.mp hx with hhead | htail
          · subst hhead
            rw [hstat] at hs
            cases hs
          · exact ⟨x, htail, hs, hf⟩

theorem inductionResults_eq (branchFactor : Nat) (runId : String)
    (outcome : String → BranchOutcome) :
    callLlmBatch outcome ((buildInductionSpecs branchFactor).map
        (fun spec => { key := spec.variantId, runId := runId, phaseId := "phase_e", prompt := "" })) =
      (buildInductionSpecs branchFactor).map (fun spec =>
        match outcome spec.variantId with
        | .success content provider =>
          { key := spec.variantId, status := .SUCCESS, provider := some provider, content := some content }
        | .failure message =>
          { key := spec.variantId, status := .FAILURE, error := some message }) := by
  unfold callLlmBatch
  by_cases hemp : (((buildInductionSpecs branchFactor).map
      (fun spec => ({ key := spec.variantId, runId := runId, phaseId := "phase_e", prompt := "" } : BatchLlmCallItem))).isEmpty) = true
  · rw [if_pos hemp]
    have hnil : buildInductionSpecs branchFactor = [] := by
      cases hb : buildInductionSpecs branchFactor with
      | nil => rfl
      | cons a rest =>
        rw [hb] at hemp
        simp [List.isEmpty] at hemp
    rw [hnil]
    rfl
  · rw [if_neg hemp]
    unfold callLlmBatchDirect
    rw [List.map_map]
    apply List.map_congr_left
    intro spec _
    show (match outcome spec.variantId with
      | BranchOutcome.success content provider =>
        ({ key := spec.variantId, status := BatchStatus.SUCCESS, provider := some provider, content := some content } : BatchLlmCallResultItem)
      | BranchOutcome.failure message =>
        { key := spec.variantId, status := BatchStatus.FAILURE, error := some message }) = _
    cases h : outcome spec.variantId with
    | success content provider => rfl
    | failure message => rfl

theorem inductionSuccesses_iff (branchFactor : Nat) (runId : String)
    (outcome : String → BranchOutcome) :
    ((collectRefinements (buildInductionSpecs branchFactor)
        (callLlmBatch outcome ((buildInductionSpecs branchFactor).map
          (fun spec => { key := spec.variantId, runId := runId, phaseId := "phase_e", prompt := "" })))).1 ≠ [] ↔
      ∃ spec ∈ buildInductionSpecs branchFactor,
        ∃ c p, outcome spec.variantId = BranchOutcome.success c p) := by
  rw [inductionResults_eq branchFactor runId outcome]
  rw [collectRefinements_successes_iff]
  constructor
  · rintro ⟨r, hr, hstat, hfind⟩
    obtain ⟨spec, hspec, hres⟩ := List.mem_map.mp hr
    refine ⟨spec, hspec, ?_⟩
    cases h : outcome spec.variantId with
    | success content provider => exact ⟨content, provider, rfl⟩
    | failure message =>
      rw [← hres] at hstat
      rw [h] at hstat
      cases hstat
  · rintro ⟨spec, hspec, c, p, hsucc⟩
    refine ⟨{ key := spec.variantId, status := BatchStatus.SUCCESS, provider := some p, content := some c, error := none }, ?_, rfl, ?_⟩
    · apply List.mem_map.mpr
      refine ⟨spec, hspec, ?_⟩
      rw [hsucc]
    · rw [List.find?_isSome]
      exact ⟨spec, hspec, by simp⟩

theorem applyWorkflowAction_ok_pres (st : EngineState) (request : WorkflowActionRequest)
    (h : phasePresent st request.runId request.phaseId = true) :
    (∃ result, (applyWorkflowAction st request).2 = Except.ok result ∧
      result.response.accepted = true) ∧
    ∀ d, phasePresent (applyWorkflowAction st request).1 request.runId d =
      phasePresent st request.runId d := by
  unfold phasePresent at h
  cases hfind : phasesFind (ensureRun st request.runId).1.phases request.phaseId with
  | none => rw [hfind] at h; simp at h
  | some phase =>
    obtain ⟨phase4, result, h1, h2, _, _, _, _⟩ := applyWorkflowAction_ok st request phase hfind
    refine ⟨⟨result, h1, h2⟩, ?_⟩
    intro d
    obtain ⟨S, hS, hd⟩ := applyWorkflowAction_presence st request phase hfind
    unfold phasePresent
    rw [hS]
    exact hd d

theorem markPhaseCompleted_ok_pres (st : EngineState) (runId phaseId actorId : String)
    (reason : Option String)
    (h : phasePresent st runId phaseId = true) :
    (∃ result, (markPhaseCompleted st runId phaseId actorId reason).2 = Except.ok result ∧
      result.response.accepted = true) ∧
    ∀ d, phasePresent (markPhaseCompleted st runId phaseId actorId reason).1 runId d =
      phasePresent st runId d := by
  unfold phasePresent at h
  cases hfind : phasesFind (ensureRun st runId).1.phases phaseId with
  | none => rw [hfind] at h; simp at h
  | some phase =>
    obtain ⟨result, h1, h2, _, _⟩ := markPhaseCompleted_ok st runId phaseId actorId reason phase hfind
    refine ⟨⟨result, h1, h2⟩, ?_⟩
    intro d
    obtain ⟨S, hS, hd⟩ := markPhaseCompleted_presence st runId phaseId actorId reason phase hfind
    unfold phasePresent
    rw [hS]
    exact hd d

theorem persistPhaseOutput_ok_pres (st : EngineState) (runId phaseId : String)
    (output : PhaseOutput) (artifactPayloads : List (ArtifactKind × String))
    (h : phasePresent st runId phaseId = true) :
    (∃ refs, (persistPhaseOutput st runId phaseId output artifactPayloads).2 =
      Except.ok refs) ∧
    ∀ d, phasePresent (persistPhaseOutput st runId phaseId output artifactPayloads).1 runId d =
      phasePresent st runId d := by
  unfold phasePresent at h
  obtain ⟨refs, S, h1, h2, h3⟩ :=
    persistPhaseOutput_components st runId phaseId output artifactPayloads h
  refine ⟨⟨refs, h1⟩, ?_⟩
  intro d
  unfold phasePresent
  rw [h2]
  exact h3 d

theorem buildPermutationSpecs_phaseId (branchFactor : Nat) :
    ∀ spec ∈ buildPermutationSpecs branchFactor, ∀ p, spec.phaseId = some p →
      p = "phase_b" ∨ p = "phase_c" := by
  intro spec hspec p hp
  unfold buildPermutationSpecs at hspec
  obtain ⟨index, _, hs⟩ := List.mem_map.mp hspec
  rw [← hs] at hp
  dsimp only at hp
  split at hp
  · left
    exact (Option.some.injEq _ _ ▸ hp).symm
  · split at hp
    · right
      exact (Option.some.injEq _ _ ▸ hp).symm
    · cases hp

theorem runPermutationBranches_ok (runId actorId : String)
    (permutationSpecs : List PermutationSpec)
    (hspecs : ∀ spec ∈ permutationSpecs, ∀ p, spec.phaseId = some p →
      p = "phase_b" ∨ p = "phase_c") :
    ∀ (results : List BatchLlmCallResultItem) (st : EngineState),
      phasePresent st runId "phase_b" = true →
      phasePresent st runId "phase_c" = true →
      ∃ out, (runPermutationBranches st runId actorId permutationSpecs results).2 =
          Except.ok out ∧
        ∀ d, phasePresent (runPermutationBranches st runId actorId permutationSpecs results).1
          runId d = phasePresent st runId d := by
  intro results
  induction results with
  | nil =>
    intro st _ _
    exact ⟨([], []), rfl, fun d => rfl⟩
  | cons result rest ih =>
    intro st hb hc
    unfold runPermutationBranches
    cases hfind : permutationSpecs.find? (fun candidate => candidate.variantId == result.key) with
    | none =>
      simp only [hfind]
      exact ih st hb hc
    | some spec =>
      simp only [hfind]
      cases hstat : result.status with
      | FAILURE =>
        simp only [hstat]
        obtain ⟨out, hok, hpres⟩ := ih st hb hc
        obtain ⟨variants, errs⟩ := out
        simp only [hok]
        exact ⟨_, rfl, fun d => hpres d⟩
      | SUCCESS =>
        simp only [hstat]
        cases hpid : spec.phaseId with
        | none =>
          simp only
          obtain ⟨out, hok, hpres⟩ := ih st hb hc
          obtain ⟨variants, errs⟩ := out
          simp only [hok]
          exact ⟨_, rfl, fun d => hpres d⟩
        | some attached =>
          simp only
          have hattached := hspecs spec (List.mem_of_find?_eq_some hfind) attached hpid
          have hpresent : phasePresent st runId attached = true := by
            rcases hattached with h | h
            · rw [h]; exact hb
            · rw [h]; exact hc
          obtain ⟨⟨r1, hr1, _⟩, hpres1⟩ := applyWorkflowAction_ok_pres st
            { action := .START_PHASE, runId := runId, phaseId := attached, actorId := actorId }
            hpresent
          simp only [hr1]
          obtain ⟨⟨refs, hrefs⟩, hpres2⟩ := persistPhaseOutput_ok_pres _ runId attached
            { payload := (result.content).getD "" } [(ArtifactKind.json, "output")]
            (by rw [hpres1]; exact hpresent)
          simp only [hrefs]
          obtain ⟨⟨r2, hr2, _⟩, hpres3⟩ := applyWorkflowAction_ok_pres _
            { action := .APPROVE_PHASE, runId := runId, phaseId := attached, actorId := actorId,
              reason := some "Auto-approved permutation output; human review is deferred to phase_d" }
            (by rw [hpres2, hpres1]; exact hpresent)
          simp only [hr2]
          obtain ⟨out, hok, hpres4⟩ := ih _
            (by rw [hpres3, hpres2, hpres1]; exact hb)
            (by rw [hpres3, hpres2, hpres1]; exact hc)
          obtain ⟨variants, errs⟩ := out
          simp only [hok]
          refine ⟨_, rfl, ?_⟩
          intro d
          rw [hpres4, hpres3, hpres2, hpres1]

theorem phaseEInductionFlow_accepted_iff (st : EngineState) (runId actorId sel : String)
    (branchFactor : Nat) (outcome : String → BranchOutcome)
    (h : phasePresent st runId "phase_e" = true) :
    ((phaseEInductionFlow st runId actorId sel branchFactor outcome).2.accepted = true ↔
      ∃ spec ∈ buildInductionSpecs branchFactor,
        ∃ c p, outcome spec.variantId = BranchOutcome.success c p) := by
  unfold phaseEInductionFlow
  obtain ⟨⟨r1, hr1, _⟩, hpres1⟩ := applyWorkflowAction_ok_pres st
    { action := .RETRY_PHASE, runId := runId, phaseId := "phase_e", actorId := actorId } h
  simp only [hr1]
  obtain ⟨⟨refs, hrefs⟩, hpres2⟩ := persistPhaseOutput_ok_pres _ runId "phase_e"
    { payload := "phase_e_component_induction_pending" } [] (by rw [hpres1]; exact h)
  simp only [hrefs]
  by_cases hempty : ((collectRefinements (buildInductionSpecs branchFactor)
      (callLlmBatch outcome ((buildInductionSpecs branchFactor).map
        (fun spec => { key := spec.variantId, runId := runId, phaseId := "phase_e", prompt := "" })))).1.isEmpty) = true
  · rw [if_pos hempty]
    have hnil : (collectRefinements (buildInductionSpecs branchFactor)
        (callLlmBatch outcome ((buildInductionSpecs branchFactor).map
          (fun spec => { key := spec.variantId, runId := runId, phaseId := "phase_e", prompt := "" })))).1 = [] := by
      cases hl : (collectRefinements (buildInductionSpecs branchFactor)
          (callLlmBatch outcome ((buildInductionSpecs branchFactor).map
            (fun spec => { key := spec.variantId, runId := runId, phaseId := "phase_e", prompt := "" })))).1 with
      | nil => rfl
      | cons a l => rw [hl] at hempty; simp [List.isEmpty] at hempty
    constructor
    · intro hfalse
      simp [rejectedResponse] at hfalse
    · intro hex
      have hne := (inductionSuccesses_iff branchFactor runId outcome).mpr hex
      exact absurd hnil hne
  · rw [if_neg hempty]
    obtain ⟨⟨refs2, hrefs2⟩, hpres3⟩ := persistPhaseOutput_ok_pres _ runId "phase_e"
      { payload := "phase_e_component_induction" } [(ArtifactKind.json, "output")]
      (by rw [hpres2, hpres1]; exact h)
    simp only [hrefs2]
    obtain ⟨⟨r2, hr2, hacc⟩, hpres4⟩ := markPhaseCompleted_ok_pres _ runId "phase_e" actorId
      (some ("Component refinement completed for '" ++ sel ++ "'"))
      (by rw [hpres3, hpres2, hpres1]; exact h)
    simp only [hr2]
    constructor
    · intro _
      refine (inductionSuccesses_iff branchFactor runId outcome).mp ?_
      intro hnil
      exact hempty (by rw [hnil]; rfl)
    · intro _
      exact hacc

theorem phaseAContextInitFlow_accepted (st : EngineState) (runId actorId : String)
    (contextOutput : PhaseOutput) (branchFactor : Nat) (outcome : String → BranchOutcome)
    (ha : phasePresent st runId "phase_a" = true)
    (hb : phasePresent st runId "phase_b" = true)
    (hc : phasePresent st runId "phase_c" = true)
    (hd : phasePresent st runId "phase_d" = true) :
    (phaseAContextInitFlow st runId actorId contextOutput branchFactor outcome).2.accepted
      = true := by
  unfold phaseAContextInitFlow
  obtain ⟨⟨refs1, hrefs1⟩, hpres1⟩ := persistPhaseOutput_ok_pres st runId "phase_a"
    contextOutput [(ArtifactKind.json, "contextArtifact")] ha
  simp only [hrefs1]
  obtain ⟨⟨r1, hr1, hacc1⟩, hpres2⟩ := applyWorkflowAction_ok_pres _
    { action := .APPROVE_PHASE, runId := runId, phaseId := "phase_a", actorId := actorId,
      reason := some "Phase A context captured and normalized via LLM" }
    (by rw [hpres1]; exact ha)
  simp only [hr1]
  obtain ⟨⟨refs2, hrefs2⟩, hpres3⟩ := persistPhaseOutput_ok_pres _ runId "phase_d"
    { payload := "auto_phase_a_variant_collection_pending" } []
    (by rw [hpres2, hpres1]; exact hd)
  simp only [hrefs2]
  obtain ⟨out, hok, hpres4⟩ := runPermutationBranches_ok runId actorId
    (buildPermutationSpecs branchFactor) (buildPermutationSpecs_phaseId branchFactor)
    (callLlmBatch outcome ((buildPermutationSpecs branchFactor).map
      (fun permutation => { key := permutation.variantId, runId := runId, phaseId := (permutation.phaseId).getD "phase_d", prompt := "" }))) _
    (by rw [hpres3, hpres2, hpres1]; exact hb)
    (by rw [hpres3, hpres2, hpres1]; exact hc)
  obtain ⟨generatedVariants, autoStartErrors⟩ := out
  simp only [hok]
  by_cases hlen : generatedVariants.length > 0
  · rw [if_pos hlen]
    obtain ⟨⟨refs3, hrefs3⟩, _⟩ := persistPhaseOutput_ok_pres _ runId "phase_d"
      { payload := "auto_phase_a_variant_collection" } [(ArtifactKind.json, "generatedVariants")]
      (by rw [hpres4, hpres3, hpres2, hpres1]; exact hd)
    simp only [hrefs3]
    exact hacc1
  · rw [if_neg hlen]
    exact hacc1

/-- C3 — settle-all fan-out acceptance: every coordinator fan-out collects
its branch results with a settle-all strategy (the batch call yields one
keyed result per requested branch, never dropping the rest of the batch on
a branch failure), and the action as a whole succeeds whenever at least
one branch succeeds, being rejected only when every branch of that batch
fails.  Concretely: (1) callLlmBatchDirect returns exactly one result per
item, keyed like the items; (2) the gate-phase (phase_a) variant fan-out
flow always returns the gate's accepted response, for any branch outcomes
(so in particular it is never rejected while some branch succeeds, and a
rejection on branch failures — there being none — only ever happens when
all branches fail, vacuously); (3) the targeted-refinement (phase_e)
induction flow is accepted whenever some induction branch succeeds, and
if it is rejected then every induction branch of the batch failed. -/
theorem claim_C3_settle_all_fanout_acceptance
    (st st' : EngineState) (runId actorId sel : String) (contextOutput : PhaseOutput)
    (branchFactor : Nat) (outcome : String → BranchOutcome)
    (ha : phasePresent st runId "phase_a" = true)
    (hb : phasePresent st runId "phase_b" = true)
    (hc : phasePresent st runId "phase_c" = true)
    (hd : phasePresent st runId "phase_d" = true)
    (he : phasePresent st' runId "phase_e" = true) :
    (∀ items : List BatchLlmCallItem,
      (callLlmBatchDirect outcome items).map (fun r => r.key) =
        items.map (fun i => i.key)) ∧
    (phaseAContextInitFlow st runId actorId contextOutput branchFactor outcome).2.accepted
      = true ∧
    ((∃ spec ∈ buildInductionSpecs branchFactor,
        ∃ c p, outcome spec.variantId = BranchOutcome.success c p) →
      (phaseEInductionFlow st' runId actorId sel branchFactor outcome).2.accepted = true) ∧
    ((phaseEInductionFlow st' runId actorId sel branchFactor outcome).2.accepted = false →
      ∀ spec ∈ buildInductionSpecs branchFactor,
        ∃ m, outcome spec.variantId = BranchOutcome.failure m) := by
  refine ⟨?_,
    phaseAContextInitFlow_accepted st runId actorId contextOutput branchFactor outcome
      ha hb hc hd, ?_, ?_⟩
  · intro items
    unfold callLlmBatchDirect
    rw [List.map_map]
    apply List.map_congr_left
    intro item _
    simp only [Function.comp]
    cases h : outcome item.key with
    | success c p => rfl
    | failure m => rfl
  · intro hex
    exact (phaseEInductionFlow_accepted_iff st' runId actorId sel branchFactor outcome he).mpr
      hex
  · intro hfalse spec hspec
    cases hout : outcome spec.variantId with
    | failure m => exact ⟨m, rfl⟩
    | success c p =>
      have hacc : (phaseEInductionFlow st' runId actorId sel branchFactor outcome).2.accepted
          = true :=
        (phaseEInductionFlow_accepted_iff st' runId actorId sel branchFactor outcome he).mpr
          ⟨spec, hspec, c, p, hout⟩
      rw [hfalse] at hacc
      cases hacc

theorem claim_C3_witness :
    (phasePresent ({} : EngineState) "run_w3" "phase_a" = true ∧
     phasePresent ({} : EngineState) "run_w3" "phase_b" = true ∧
     phasePresent ({} : EngineState) "run_w3" "phase_c" = true ∧
     phasePresent ({} : EngineState) "run_w3" "phase_d" = true ∧
     phasePresent ({} : EngineState) "run_w3" "phase_e" = true) ∧
    ((∀ items : List BatchLlmCallItem,
      (callLlmBatchDirect (fun _ => BranchOutcome.failure "boom") items).map (fun r => r.key) =
        items.map (fun i => i.key)) ∧
    (phaseAContextInitFlow {} "run_w3" "tester" { payload := "ctx" } 2
        (fun _ => BranchOutcome.failure "boom")).2.accepted = true ∧
    ((∃ spec ∈ buildInductionSpecs 2,
        ∃ c p, (fun _ => BranchOutcome.failure "boom") spec.variantId =
          BranchOutcome.success c p) →
      (phaseEInductionFlow {} "run_w3" "tester" "<main" 2
        (fun _ => BranchOutcome.failure "boom")).2.accepted = true) ∧
    ((phaseEInductionFlow {} "run_w3" "tester" "<main" 2
        (fun _ => BranchOutcome.failure "boom")).2.accepted = false →
      ∀ spec ∈ buildInductionSpecs 2,
        ∃ m, (fun _ => BranchOutcome.failure "boom") spec.variantId =
          BranchOutcome.failure m)) :=
  ⟨⟨by decide, by decide, by decide, by decide, by decide⟩,
    claim_C3_settle_all_fanout_acceptance {} {} "run_w3" "tester" "<main" { payload := "ctx" } 2
      (fun _ => BranchOutcome.failure "boom")
      (by decide) (by decide) (by decide) (by decide) (by decide)⟩

end Orchestra
